import Mathlib

/-!
# EasySearch: index registry and dispatcher (`lib/easy-search-common.js`)

A shallow embedding of the `EasySearch` module and a verification of its
configuration-merge and dispatch contract.

Modelling conventions.

* JavaScript values are the inductive type `Value`.  Records are ordered lists
  of own properties (`Obj`).  Numbers are integer valued.
* The two module-level maps `indexes` and `Searchers` form the `State`.  They
  are plain objects read with bracket access, so a read `map[key]` that finds
  no own entry falls back on the prototype of the map (`mapGet`): the members
  of `Object.prototype` (`objectPrototype`), or those of a record that an
  assignment to the key `__proto__` has put in its place.  The member names
  that the module reads on a record (`use`, `permission`, `field`, `search`,
  `createSearchIndex`, `defaultQuery`, `defaultSort`) are none of
  `Object.prototype`, so those reads are own-property reads.
* Every operation returns an `Outcome`: what the call returned or threw, the
  state it left behind, and the sequence of user-function invocations it
  performed.
* Functions supplied by callers and backends are references `Fn.ext i` that a
  `World` interprets; they may return or throw, and they do not themselves
  touch the two maps.  The three functions of the default template are the
  remaining constructors of `Fn`, interpreted by `apply` exactly as their
  bodies read.
-/

set_option autoImplicit false

namespace EasySearch

/-! ## Values -/

/-- Function values: the three functions of `defaultOptions`, functions
supplied from outside the module, and built-in functions of the language,
named by where they live (`Object.prototype.toString`). -/
inductive Fn where
  | defaultSort
  | defaultPermission
  | defaultQuery
  | ext (id : Nat)
  | native (name : String)
  deriving DecidableEq, Repr

/-- JavaScript values. -/
inductive Value where
  | undefined
  | null
  | bool (b : Bool)
  | num (n : Int)
  | str (s : String)
  | arr (xs : List Value)
  | obj (kvs : List (String × Value))
  | fn (f : Fn)

/-- A record: its own properties in insertion order. -/
abbrev Obj := List (String × Value)

/-- Errors a call can end with. -/
inductive Err where
  /-- `Match.Error`, thrown by a failing `check`. -/
  | matchError
  /-- `Meteor.Error(code, reason)`. -/
  | meteorError (code : Int) (reason : String)
  /-- The language's `TypeError` (member of `undefined`, call of a non-function). -/
  | typeError
  /-- The language's `RangeError` on call-stack exhaustion. -/
  | rangeError
  /-- An exception thrown by a function supplied from outside. -/
  | thrown (v : Value)

/-- The environment of the module: the meaning of outside functions (receiver,
arguments ↦ returned or thrown), the source text of function values, the
call-stack depth available to a call, the meaning of the built-in functions,
and the text of a number of magnitude `10^21` or more (which the language
prints in exponent form). -/
structure World where
  call : Nat → Value → List Value → Except Err Value
  source : Fn → String
  depth : Nat
  native : String → Value → List Value → Except Err Value
  largeNumberText : Int → String

/-! ## Property maps -/

/-- Own-property read `o[key]` on a property map; `none` when absent. -/
def lookup {α : Type} : List (String × α) → String → Option α
  | [], _ => none
  | (k, v) :: r, key => if k = key then some v else lookup r key

/-- Property write `o[key] = v`: replaces the value of an existing key in
place, appends a new key otherwise. -/
def assign {α : Type} : List (String × α) → String → α → List (String × α)
  | [], key, v => [(key, v)]
  | (k, w) :: r, key, v => if k = key then (k, v) :: r else (k, w) :: assign r key v

/-- The own keys of a property map, in enumeration order. -/
def keys {α : Type} (o : List (String × α)) : List String := o.map Prod.fst

/-- Value of `o[key]` on a record: `undefined` when the key is absent. -/
def read (o : Obj) (key : String) : Value := (lookup o key).getD Value.undefined

/-- Value of `v.key` for an arbitrary value and one of the member names that
the module reads: a `TypeError` on `undefined` and `null`, an own-property read
on a record, the built-in `String.prototype.search` for the member `search`
of a string, `undefined` otherwise. -/
def member (v : Value) (key : String) : Except Err Value :=
  match v with
  | .undefined => .error .typeError
  | .null => .error .typeError
  | .obj o => .ok (read o key)
  | .str _ => if key = "search" then .ok (.fn (.native "String.prototype.search")) else .ok .undefined
  | _ => .ok .undefined

/-- The own members of `Object.prototype`, which every plain object inherits:
the built-in functions of the language standard and the legacy accessor
helpers. -/
def objectPrototype : Obj :=
  [("constructor", .fn (.native "Object")),
   ("toString", .fn (.native "Object.prototype.toString")),
   ("toLocaleString", .fn (.native "Object.prototype.toLocaleString")),
   ("valueOf", .fn (.native "Object.prototype.valueOf")),
   ("hasOwnProperty", .fn (.native "Object.prototype.hasOwnProperty")),
   ("isPrototypeOf", .fn (.native "Object.prototype.isPrototypeOf")),
   ("propertyIsEnumerable", .fn (.native "Object.prototype.propertyIsEnumerable")),
   ("__defineGetter__", .fn (.native "Object.prototype.__defineGetter__")),
   ("__defineSetter__", .fn (.native "Object.prototype.__defineSetter__")),
   ("__lookupGetter__", .fn (.native "Object.prototype.__lookupGetter__")),
   ("__lookupSetter__", .fn (.native "Object.prototype.__lookupSetter__"))]

/-- Bracket read `map[key]` on one of the two module-level maps.  The entry
under `__proto__`, when there is one, is the record that an assignment
`map["__proto__"] = record` has made the prototype of the map.  An own entry
wins; `__proto__` reads the prototype; any other key falls back on the
prototype record, and then on `Object.prototype`. -/
def mapGet (map : List (String × Obj)) (key : String) : Value :=
  match lookup map key with
  | some v => .obj v
  | none =>
    if key = "__proto__" then .obj objectPrototype
    else
      match lookup map "__proto__" with
      | some p =>
        match lookup p key with
        | some v => v
        | none => read objectPrototype key
      | none => read objectPrototype key

/-- The map after `_.extend(map[key], options)` has written into the record
that `map[key]` denotes, `merged` being the record after the write: an own
entry is replaced in place, and a record inherited from the prototype record
is replaced inside it.  (`Object.prototype` itself has no function member
`permission`, so the module never writes into it.) -/
def writeBack (map : List (String × Obj)) (key : String) (merged : Obj) : List (String × Obj) :=
  match lookup map key with
  | some _ => assign map key merged
  | none =>
    match lookup map "__proto__" with
    | some p =>
      match lookup p key with
      | some _ => assign map "__proto__" (assign p key (.obj merged))
      | none => map
    | none => map

/-! ## Coercions -/

mutual
/-- String conversion of a value, as used for property keys and for string
concatenation. -/
def Value.text (W : World) : Value → String
  | .undefined => "undefined"
  | .null => "null"
  | .bool b => if b then "true" else "false"
  | .num n => if n.natAbs < 10 ^ 21 then toString n else W.largeNumberText n
  | .str s => s
  | .arr xs => Value.joinText W xs
  | .obj _ => "[object Object]"
  | .fn f => W.source f
termination_by structural v => v
/-- String conversion of a sequence: elements joined by commas, `undefined`
and `null` elements contributing nothing. -/
def Value.joinText (W : World) : List Value → String
  | [] => ""
  | x :: r =>
    (match x with
      | .undefined => ""
      | .null => ""
      | _ => Value.text W x)
    ++ (match r with
      | [] => ""
      | _ => ",")
    ++ Value.joinText W r
termination_by structural l => l
end

/-- Property key that a value denotes in `o[v]`. -/
def toKey (W : World) (v : Value) : String := Value.text W v

/-- Truthiness of a value in a condition. -/
def truthy : Value → Bool
  | .undefined => false
  | .null => false
  | .bool b => b
  | .num n => n != 0
  | .str s => s != ""
  | _ => true

/-! ## Library and framework primitives -/

/-- Modelled from the spec: `_.isArray` of the underscore library, which the
source calls to tell a sequence from a scalar. -/
def isArray : Value → Bool
  | .arr _ => true
  | _ => false

/-- Modelled from the spec: `_.clone`, a fresh shallow copy of a record. -/
def clone (o : Obj) : Obj := o

/-- Modelled from the spec: `_.extend(dst, src)`, the shallow overlay that
writes `src[k]` to `dst[k]` for every key `k` of `src`, in enumeration order. -/
def extend (dst src : Obj) : Obj :=
  (keys src).foldl (fun acc k => assign acc k (read src k)) dst

/-- Modelled from the spec: `check(v, String)` of the host framework. -/
def isString : Value → Bool
  | .str _ => true
  | _ => false

/-- Modelled from the spec: `check(v, Function)` of the host framework. -/
def isFunction : Value → Bool
  | .fn _ => true
  | _ => false

/-- Modelled from the spec: `check(v, Match.Optional(Function))`: the value is
absent or invocable. -/
def optionalFunction : Value → Bool
  | .undefined => true
  | .fn _ => true
  | _ => false

/-! ## State, calls and outcomes -/

/-- The module state: the own entries of `indexes` (index name ↦
configuration) and of `Searchers` (backend kind ↦ methods).  In either map the
entry under `__proto__`, when present, is the record that has become the
prototype of the map (that is what an assignment to that key does); the maps
are read with `mapGet`. -/
structure State where
  indexes : List (String × Obj)
  searchers : List (String × Obj)

/-- The state at load time: both maps empty. -/
def State.empty : State := ⟨[], []⟩

/-- An invocation of a user function made by the module. -/
inductive Call where
  /-- `indexes[name].permission(searchString)`: receiver and arguments. -/
  | permission (this : Value) (args : List Value)
  /-- `Searchers[kind].search(...)`: kind and arguments. -/
  | search (kind : String) (args : List Value)
  /-- `Searchers[kind].createSearchIndex(...)`: kind and arguments. -/
  | createSearchIndex (kind : String) (args : List Value)

/-- What a call of an operation amounts to. -/
structure Outcome where
  result : Except Err Value
  state : State
  calls : List Call

/-- The invocation is recorded when the callee is a function (otherwise the
call expression throws without invoking anything). -/
def logCall (callee : Value) (c : Call) : List Call :=
  if isFunction callee then [c] else []

/-- The default template `defaultOptions` (source lines 6-26). -/
def defaultOptions : Obj :=
  [("format", .str "mongo"),
   ("limit", .num 10),
   ("use", .str "minimongo"),
   ("sort", .fn .defaultSort),
   ("permission", .fn .defaultPermission),
   ("query", .fn .defaultQuery)]

/-- Call of the value `f` with receiver `this` and arguments `args`, with
`d` stack frames left.  The three default functions run their source bodies:
`sort` is `Searchers[this.use].defaultSort(this)`, `permission` is `true`,
`query` is `Searchers[this.use].defaultQuery(this, searchString)`. -/
def apply (W : World) (searchers : List (String × Obj)) :
    Nat → Value → Value → List Value → Except Err Value
  | _, .fn (.ext i), this, args => W.call i this args
  | _, .fn (.native name), this, args => W.native name this args
  | _, .fn .defaultPermission, _, _ => .ok (.bool true)
  | 0, .fn .defaultSort, _, _ => .error .rangeError
  | 0, .fn .defaultQuery, _, _ => .error .rangeError
  | d + 1, .fn .defaultSort, this, _ =>
    match member this "use" with
    | .error e => .error e
    | .ok u =>
      match member (mapGet searchers (toKey W u)) "defaultSort" with
      | .error e => .error e
      | .ok builder => apply W searchers d builder (mapGet searchers (toKey W u)) [this]
  | d + 1, .fn .defaultQuery, this, args =>
    match member this "use" with
    | .error e => .error e
    | .ok u =>
      match member (mapGet searchers (toKey W u)) "defaultQuery" with
      | .error e => .error e
      | .ok builder =>
        apply W searchers d builder (mapGet searchers (toKey W u))
          [this, args.headD .undefined]
  | _, _, _, _ => .error .typeError

/-! ## The operations -/

/-- Source line 57: `options.field = _.isArray(options.field) ? options.field :
[options.field]`, the caller's record after the assignment. -/
def normalizeField (options : Obj) : Obj :=
  assign options "field"
    (if isArray (read options "field") then read options "field"
     else .arr [read options "field"])

/-- The canonical empty result `{ 'results' : [], 'total' : 0 }`. -/
def emptyResult : Value := .obj [("results", .arr []), ("total", .num 0)]

/-- The reason string of the error thrown at source line 79. -/
def unknownTypeReason (W : World) (searcherType : Value) : String :=
  "Couldnt search with the type: \x27" ++ Value.text W searcherType ++ "\x27"

/-- The `createSearchIndex(name, options)` operation (source lines 53-61).
Line 60 is `Searchers[options.use] && Searchers[options.use].createSearchIndex(
name, options)`: nothing happens when the read is a false value, and otherwise
the member `createSearchIndex` of what was read is called, whether or not it
is a registered backend. -/
def createSearchIndex (W : World) (st : State) (name options : Value) : Outcome :=
  match name, options with
  | .str n, .obj o =>
    let o1 := normalizeField o
    let st1 : State := { st with indexes := assign st.indexes n (extend (clone defaultOptions) o1) }
    let kind := toKey W (read o1 "use")
    let backend := mapGet st1.searchers kind
    if truthy backend then
      match member backend "createSearchIndex" with
      | .error e => ⟨.error e, st1, []⟩
      | .ok hook =>
        ⟨(apply W st1.searchers W.depth hook backend [.str n, .obj o1]).map (fun _ => .undefined),
          st1, logCall hook (.createSearchIndex kind [.str n, .obj o1])⟩
    else ⟨.ok .undefined, st1, []⟩
  | _, _ => ⟨.error .matchError, st, []⟩

/-- The `search(name, searchString, options, callback)` operation (source lines
70-88).  An omitted `callback` is `undefined`.  Line 71 reads
`indexes[name].use` before the checks; the guard of line 78 tests whether
`Searchers[searcherType]` is `undefined`; line 83 calls the member `permission`
of `indexes[name]`, which only a record can have; line 86 reads the member
`search` of `Searchers[searcherType]`, then evaluates the arguments, the
in-place `_.extend` among them, and then makes the call. -/
def search (W : World) (st : State) (name searchString options callback : Value) : Outcome :=
  match member (mapGet st.indexes (toKey W name)) "use" with
  | .error e => ⟨.error e, st, []⟩
  | .ok searcherType =>
    match name, searchString, options, optionalFunction callback with
    | .str _, .str _, .obj o, true =>
      match mapGet st.searchers (toKey W searcherType) with
      | .undefined => ⟨.error (.meteorError 500 (unknownTypeReason W searcherType)), st, []⟩
      | backend =>
        match mapGet st.indexes (toKey W name) with
        | .obj cfg =>
          let permission := read cfg "permission"
          let asked := logCall permission (.permission (.obj cfg) [searchString])
          match apply W st.searchers W.depth permission (.obj cfg) [searchString] with
          | .error e => ⟨.error e, st, asked⟩
          | .ok allowed =>
            if truthy allowed then
              match member backend "search" with
              | .error e => ⟨.error e, st, asked⟩
              | .ok callee =>
                let merged := extend cfg o
                let st1 : State :=
                  { st with indexes := writeBack st.indexes (toKey W name) merged }
                let args := [name, searchString, .obj merged, callback]
                ⟨apply W st1.searchers W.depth callee backend args, st1,
                  asked ++ logCall callee (.search (toKey W searcherType) args)⟩
            else ⟨.ok emptyResult, st, asked⟩
        | _ => ⟨.error .typeError, st, []⟩
    | _, _, _, _ => ⟨.error .matchError, st, []⟩

/-- The `getIndex(name)` accessor (source lines 96-98): `indexes[name]`. -/
def getIndex (W : World) (st : State) (name : Value) : Value :=
  mapGet st.indexes (toKey W name)

/-- The `getSearcher(name)` accessor (source lines 112-114): `Searchers[name]`. -/
def getSearcher (W : World) (st : State) (name : Value) : Value :=
  mapGet st.searchers (toKey W name)

/-- The `createSearcher(key, methods)` operation (source lines 133-141).  The
four member reads throw a `TypeError` on `undefined` and `null`; on a value that
is not a record the member `createSearchIndex` reads `undefined`, so a check
fails.  Line 140 is the assignment `Searchers[key] = methods`; under the key
`__proto__` the entry it writes is the prototype of the map. -/
def createSearcher (st : State) (key methods : Value) : Outcome :=
  match key with
  | .str k =>
    match methods with
    | .undefined => ⟨.error .typeError, st, []⟩
    | .null => ⟨.error .typeError, st, []⟩
    | .obj m =>
      if isFunction (read m "search") && isFunction (read m "createSearchIndex")
          && isFunction (read m "defaultQuery") && isFunction (read m "defaultSort") then
        ⟨.ok .undefined, { st with searchers := assign st.searchers k m }, []⟩
      else ⟨.error .matchError, st, []⟩
    | _ => ⟨.error .matchError, st, []⟩
  | _ => ⟨.error .matchError, st, []⟩

/-! ## Concrete environments and inputs used to exercise the operations -/

/-- An environment in which outside function `0` denies (returns `false`) and
every other outside function returns `true`. -/
def demoWorld : World :=
  ⟨fun i _ _ => if i = 0 then .ok (.bool false) else .ok (.bool true), fun _ => "function", 4,
    fun _ _ _ => .ok .undefined, fun _ => "1e+21"⟩

/-- A backend descriptor whose four members are outside functions. -/
def demoMethods : Obj :=
  [("search", .fn (.ext 1)), ("createSearchIndex", .fn (.ext 2)),
   ("defaultQuery", .fn (.ext 3)), ("defaultSort", .fn (.ext 4))]

/-- The state after `createSearcher("k", demoMethods)` at load time. -/
def demoBackend : State := (createSearcher State.empty (.str "k") (.obj demoMethods)).state

/-- Creation options naming backend `k`, with a scalar field. -/
def demoOptions : Obj := [("use", .str "k"), ("field", .str "x")]

/-- Creation options naming backend `k` whose permission predicate is outside
function `0`, which denies. -/
def demoDenying : Obj := [("use", .str "k"), ("field", .str "x"), ("permission", .fn (.ext 0))]

/-- Creation options naming a backend kind that nobody registers, with the
denying permission predicate. -/
def demoOrphan : Obj :=
  [("use", .str "nonexistent"), ("field", .str "x"), ("permission", .fn (.ext 0))]

/-- The configuration stored for an index created with `demoOptions`. -/
def demoStored : Obj :=
  [("format", .str "mongo"), ("limit", .num 10), ("use", .str "k"), ("sort", .fn .defaultSort),
   ("permission", .fn .defaultPermission), ("query", .fn .defaultQuery), ("field", .arr [.str "x"])]

/-- The configuration stored for an index created with `demoDenying`. -/
def demoStoredDenying : Obj :=
  [("format", .str "mongo"), ("limit", .num 10), ("use", .str "k"), ("sort", .fn .defaultSort),
   ("permission", .fn (.ext 0)), ("query", .fn .defaultQuery), ("field", .arr [.str "x"])]

/-- The configuration stored for an index created with `demoOrphan`. -/
def demoStoredOrphan : Obj :=
  [("format", .str "mongo"), ("limit", .num 10), ("use", .str "nonexistent"),
   ("sort", .fn .defaultSort), ("permission", .fn (.ext 0)), ("query", .fn .defaultQuery),
   ("field", .arr [.str "x"])]

/-- The four capability members of a backend descriptor are functions. -/
def validMethods (m : Obj) : Bool :=
  isFunction (read m "search") && isFunction (read m "createSearchIndex")
    && isFunction (read m "defaultQuery") && isFunction (read m "defaultSort")

/-- Every registered backend descriptor has its four capability functions. -/
def validBackends (st : State) : Bool := st.searchers.all (fun p => validMethods p.2)

/-- The member `v.key` reads without error and is a function. -/
def hasFunction (v : Value) (key : String) : Bool :=
  match member v key with
  | .ok f => isFunction f
  | .error _ => false

/-- The state reached from load time by `createSearcher("k", demoMethods)`,
`createSearchIndex("i", demoOptions)` and then
`search("i", "q", {field: "y"})`. -/
def demoWidened : State :=
  (search demoWorld (createSearchIndex demoWorld demoBackend (.str "i") (.obj demoOptions)).state
    (.str "i") (.str "q") (.obj [("field", .str "y")]) .undefined).state

/-- Modelled from the spec: `check(v, Object)` of the host framework: the value
is a record. -/
def isObject : Value → Bool
  | .obj _ => true
  | _ => false

/-- The state after `createSearcher("minimongo", demoMethods)` at load time. -/
def demoMinimongo : State :=
  (createSearcher State.empty (.str "minimongo") (.obj demoMethods)).state

/-- Creation options with no `use` key. -/
def demoNoUse : Obj := [("field", .str "x")]

/-- Call-time options that name the unregistered backend kind `other`. -/
def demoRedirect : Obj := [("use", .str "other")]

/-- Call-time options that carry the denying predicate, outside function `0`. -/
def demoOverride : Obj := [("permission", .fn (.ext 0))]

/-- Creation options naming the kind `toString`, which is no backend but a
member that the backend map inherits. -/
def demoInherited : Obj := [("use", .str "toString"), ("field", .str "x")]

/-- The configuration stored for an index created with `demoInherited`. -/
def demoStoredInherited : Obj :=
  [("format", .str "mongo"), ("limit", .num 10), ("use", .str "toString"),
   ("sort", .fn .defaultSort), ("permission", .fn .defaultPermission),
   ("query", .fn .defaultQuery), ("field", .arr [.str "x"])]

/-- Creation options naming the kind `constructor`, which is no backend but a
member that the backend map inherits. -/
def demoConstructor : Obj := [("use", .str "constructor"), ("field", .str "x")]

/-- Creation options naming the inherited member `toString` as kind, with the
denying permission predicate. -/
def demoInheritedDenying : Obj :=
  [("use", .str "toString"), ("field", .str "x"), ("permission", .fn (.ext 0))]

/-- The configuration stored for an index created with `demoInheritedDenying`. -/
def demoStoredInheritedDenying : Obj :=
  [("format", .str "mongo"), ("limit", .num 10), ("use", .str "toString"),
   ("sort", .fn .defaultSort), ("permission", .fn (.ext 0)), ("query", .fn .defaultQuery),
   ("field", .arr [.str "x"])]

/-! ## Property maps: basic facts -/

theorem lookup_assign_same {α : Type} (o : List (String × α)) (k : String) (v : α) :
    lookup (assign o k v) k = some v := by
  induction o with
  | nil => simp [assign, lookup]
  | cons p r ih =>
    obtain ⟨a, b⟩ := p
    by_cases h : a = k
    · simp [assign, lookup, h]
    · simp [assign, lookup, h, ih]

theorem lookup_assign_ne {α : Type} (o : List (String × α)) (k j : String) (v : α)
    (h : j ≠ k) : lookup (assign o k v) j = lookup o j := by
  induction o with
  | nil => simp [assign, lookup, Ne.symm h]
  | cons p r ih =>
    obtain ⟨a, b⟩ := p
    by_cases hk : a = k
    · subst hk
      simp [assign, lookup, Ne.symm h]
    · by_cases hj : a = j
      · subst hj
        simp [assign, lookup, hk]
      · simp [assign, lookup, hk, hj, ih]

theorem mem_keys_of_lookup {α : Type} (o : List (String × α)) (k : String) (v : α)
    (h : lookup o k = some v) : k ∈ keys o := by
  induction o with
  | nil => simp [lookup] at h
  | cons p r ih =>
    obtain ⟨a, b⟩ := p
    by_cases hk : a = k
    · simp [keys, hk]
    · simp only [lookup, hk, if_false] at h
      have := ih h
      simp only [keys] at this
      simp [keys, this]

theorem lookup_of_mem_keys {α : Type} (o : List (String × α)) (k : String)
    (h : k ∈ keys o) : ∃ v, lookup o k = some v := by
  induction o with
  | nil => simp [keys] at h
  | cons p r ih =>
    obtain ⟨a, b⟩ := p
    by_cases hk : a = k
    · exact ⟨b, by simp [lookup, hk]⟩
    · have hr : k ∈ keys r := by
        simp only [keys, List.map_cons, List.mem_cons] at h
        rcases h with h | h
        · exact absurd h.symm hk
        · simpa [keys] using h
      obtain ⟨v, hv⟩ := ih hr
      exact ⟨v, by simp [lookup, hk, hv]⟩

theorem lookup_none_of_not_mem {α : Type} (o : List (String × α)) (k : String)
    (h : k ∉ keys o) : lookup o k = none := by
  cases hl : lookup o k with
  | none => rfl
  | some v => exact absurd (mem_keys_of_lookup o k v hl) h

theorem lookup_eq_read_of_mem (o : Obj) (k : String) (h : k ∈ keys o) :
    lookup o k = some (read o k) := by
  obtain ⟨v, hv⟩ := lookup_of_mem_keys o k h
  simp [read, hv]

theorem lookup_foldl_assign (f : String → Value) (ks : List String) (d : Obj) (k : String) :
    lookup (ks.foldl (fun acc j => assign acc j (f j)) d) k
      = if k ∈ ks then some (f k) else lookup d k := by
  induction ks generalizing d with
  | nil => simp
  | cons j r ih =>
    simp only [List.foldl_cons, ih, List.mem_cons]
    by_cases hr : k ∈ r
    · simp [hr]
    · by_cases hj : k = j
      · subst hj
        simp [hr, lookup_assign_same]
      · simp [hr, hj, lookup_assign_ne _ _ _ _ hj]

/-- Key by key, `_.extend(dst, src)` holds the value of `src` on the keys of
`src` and the value of `dst` elsewhere. -/
theorem lookup_extend (dst src : Obj) (k : String) :
    lookup (extend dst src) k = if k ∈ keys src then lookup src k else lookup dst k := by
  unfold extend
  rw [lookup_foldl_assign]
  by_cases h : k ∈ keys src
  · simp [h, lookup_eq_read_of_mem src k h]
  · simp [h]

theorem mem_keys_assign {α : Type} (o : List (String × α)) (k j : String) (v : α) :
    j ∈ keys (assign o k v) ↔ j = k ∨ j ∈ keys o := by
  constructor
  · intro h
    obtain ⟨w, hw⟩ := lookup_of_mem_keys _ _ h
    by_cases hj : j = k
    · exact Or.inl hj
    · rw [lookup_assign_ne _ _ _ _ hj] at hw
      exact Or.inr (mem_keys_of_lookup _ _ _ hw)
  · intro h
    by_cases hj : j = k
    · subst hj
      exact mem_keys_of_lookup _ _ _ (lookup_assign_same o j v)
    · rcases h with h | h
      · exact absurd h hj
      · obtain ⟨w, hw⟩ := lookup_of_mem_keys _ _ h
        exact mem_keys_of_lookup _ _ w (by rw [lookup_assign_ne _ _ _ _ hj]; exact hw)

theorem toKey_str (W : World) (s : String) : toKey W (.str s) = s := rfl

/-! ## The operations: unfolding lemmas -/

theorem isFunction_of_apply_ok (W : World) (S : List (String × Obj)) (d : Nat)
    (callee this : Value) (args : List Value) (r : Value)
    (h : apply W S d callee this args = .ok r) : isFunction callee = true := by
  cases callee <;> first | rfl | (cases d <;> simp [apply] at h)

theorem mapGet_own (map : List (String × Obj)) (key : String) (v : Obj)
    (h : lookup map key = some v) : mapGet map key = .obj v := by
  simp [mapGet, h]

theorem mapGet_assign_same (map : List (String × Obj)) (key : String) (v : Obj) :
    mapGet (assign map key v) key = .obj v :=
  mapGet_own _ _ _ (lookup_assign_same map key v)

theorem mapGet_assign_ne (map : List (String × Obj)) (key other : String) (v : Obj)
    (hproto : key ≠ "__proto__") (hne : other ≠ key) :
    mapGet (assign map key v) other = mapGet map other := by
  have hp : ("__proto__" : String) ≠ key := fun h => hproto h.symm
  simp [mapGet, lookup_assign_ne _ _ _ _ hne, lookup_assign_ne _ _ _ _ hp]

theorem writeBack_own (map : List (String × Obj)) (key : String) (v merged : Obj)
    (h : lookup map key = some v) : writeBack map key merged = assign map key merged := by
  simp [writeBack, h]

theorem createSearchIndex_state (W : World) (st : State) (n : String) (o : Obj) :
    (createSearchIndex W st (.str n) (.obj o)).state
      = { st with indexes := assign st.indexes n (extend (clone defaultOptions) (normalizeField o)) } := by
  simp only [createSearchIndex]
  split
  · split <;> rfl
  · rfl

theorem search_guard (W : World) (st : State) (n s : String) (o cfg : Obj) (cb : Value)
    (hcb : optionalFunction cb = true)
    (hcfg : lookup st.indexes n = some cfg)
    (hreg : mapGet st.searchers (toKey W (read cfg "use")) = .undefined) :
    search W st (.str n) (.str s) (.obj o) cb
      = ⟨.error (.meteorError 500 (unknownTypeReason W (read cfg "use"))), st, []⟩ := by
  simp [search, toKey_str, mapGet_own _ _ _ hcfg, member, hcb, hreg]

theorem search_unregistered (W : World) (st : State) (n s : String) (o cfg : Obj) (cb : Value)
    (hcb : optionalFunction cb = true)
    (hcfg : lookup st.indexes n = some cfg)
    (hreg : getSearcher W st (read cfg "use") = .undefined) :
    search W st (.str n) (.str s) (.obj o) cb
      = ⟨.error (.meteorError 500 (unknownTypeReason W (read cfg "use"))), st, []⟩ :=
  search_guard W st n s o cfg cb hcb hcfg hreg

theorem search_denied_of_defined (W : World) (st : State) (n s : String) (o cfg : Obj)
    (cb allowed : Value)
    (hcb : optionalFunction cb = true)
    (hcfg : lookup st.indexes n = some cfg)
    (hreg : mapGet st.searchers (toKey W (read cfg "use")) ≠ .undefined)
    (hperm : apply W st.searchers W.depth (read cfg "permission") (.obj cfg) [.str s]
      = .ok allowed)
    (hdeny : truthy allowed = false) :
    search W st (.str n) (.str s) (.obj o) cb
      = ⟨.ok emptyResult, st, [.permission (.obj cfg) [.str s]]⟩ := by
  have hf := isFunction_of_apply_ok _ _ _ _ _ _ _ hperm
  generalize hb : mapGet st.searchers (toKey W (read cfg "use")) = backend at hreg
  cases backend <;> first
    | exact absurd rfl hreg
    | simp [search, toKey_str, mapGet_own _ _ _ hcfg, member, hcb, hb, hperm, hdeny, logCall, hf]

theorem search_denied (W : World) (st : State) (n s : String) (o cfg m : Obj)
    (cb allowed : Value)
    (hcb : optionalFunction cb = true)
    (hcfg : lookup st.indexes n = some cfg)
    (hreg : lookup st.searchers (toKey W (read cfg "use")) = some m)
    (hperm : apply W st.searchers W.depth (read cfg "permission") (.obj cfg) [.str s]
      = .ok allowed)
    (hdeny : truthy allowed = false) :
    search W st (.str n) (.str s) (.obj o) cb
      = ⟨.ok emptyResult, st, [.permission (.obj cfg) [.str s]]⟩ :=
  search_denied_of_defined W st n s o cfg cb allowed hcb hcfg
    (by rw [mapGet_own _ _ _ hreg]; exact fun h => nomatch h) hperm hdeny

theorem search_allowed (W : World) (st : State) (n s : String) (o cfg m : Obj)
    (cb allowed : Value)
    (hcb : optionalFunction cb = true)
    (hcfg : lookup st.indexes n = some cfg)
    (hreg : lookup st.searchers (toKey W (read cfg "use")) = some m)
    (hperm : apply W st.searchers W.depth (read cfg "permission") (.obj cfg) [.str s]
      = .ok allowed)
    (hallow : truthy allowed = true) :
    search W st (.str n) (.str s) (.obj o) cb
      = ⟨apply W st.searchers W.depth (read m "search") (.obj m)
            [.str n, .str s, .obj (extend cfg o), cb],
          { st with indexes := assign st.indexes n (extend cfg o) },
          [.permission (.obj cfg) [.str s]]
            ++ logCall (read m "search")
                (.search (toKey W (read cfg "use")) [.str n, .str s, .obj (extend cfg o), cb])⟩ := by
  have hf := isFunction_of_apply_ok _ _ _ _ _ _ _ hperm
  simp [search, toKey_str, mapGet_own _ _ _ hcfg, mapGet_own _ _ _ hreg,
    writeBack_own _ _ _ _ hcfg, member, hcb, hperm, hallow, logCall, hf]

/-- A permitted search on a declared index, whatever `Searchers[use]` is, as
long as it is not `undefined` or `null`: the member `search` of that value is
called, after the options have been merged into the stored record. -/
theorem search_allowed_of_defined (W : World) (st : State) (n s : String) (o cfg : Obj)
    (cb allowed backend callee : Value)
    (hcb : optionalFunction cb = true)
    (hcfg : lookup st.indexes n = some cfg)
    (hreg : mapGet st.searchers (toKey W (read cfg "use")) = backend)
    (hdef : backend ≠ .undefined)
    (hmem : member backend "search" = .ok callee)
    (hperm : apply W st.searchers W.depth (read cfg "permission") (.obj cfg) [.str s]
      = .ok allowed)
    (hallow : truthy allowed = true) :
    search W st (.str n) (.str s) (.obj o) cb
      = ⟨apply W st.searchers W.depth callee backend
            [.str n, .str s, .obj (extend cfg o), cb],
          { st with indexes := assign st.indexes n (extend cfg o) },
          [.permission (.obj cfg) [.str s]]
            ++ logCall callee
                (.search (toKey W (read cfg "use")) [.str n, .str s, .obj (extend cfg o), cb])⟩ := by
  have hf := isFunction_of_apply_ok _ _ _ _ _ _ _ hperm
  cases backend <;> first
    | exact absurd rfl hdef
    | (simp [member] at hmem; done)
    | (simp only [member] at hmem
       try (simp only [if_true] at hmem)
       cases hmem
       simp [search, toKey_str, mapGet_own _ _ _ hcfg, writeBack_own _ _ _ _ hcfg, hreg, hcb,
        hperm, hallow, logCall, hf, member])

theorem getIndex_own (W : World) (st : State) (n : String) (cfg : Obj)
    (h : lookup st.indexes n = some cfg) : getIndex W st (.str n) = .obj cfg := by
  simp [getIndex, toKey_str, mapGet_own _ _ _ h]

theorem getSearcher_own (W : World) (st : State) (kind : Value) (m : Obj)
    (h : lookup st.searchers (toKey W kind) = some m) : getSearcher W st kind = .obj m := by
  simp [getSearcher, mapGet_own _ _ _ h]

/-! ## Merge precedence and the permission gate -/

/-- C1 (merge precedence).  After `createSearchIndex(name, o)`, a
`search(name, s, p, cb)` on an index whose backend is registered and whose
permission predicate holds on `s` invokes the backend's `search` with a
configuration that has, for every key `k`, the value of `p` when `k` is a key
of `p`, else the value of `o` after field normalization when `k` is a key of
it, else the value of the default template. -/
theorem merge_precedence (W : World) (st : State) (n s : String) (o p cfg m : Obj)
    (cb allowed : Value) (f : Fn)
    (hcb : optionalFunction cb = true)
    (hcfg : lookup (createSearchIndex W st (.str n) (.obj o)).state.indexes n = some cfg)
    (hreg : lookup (createSearchIndex W st (.str n) (.obj o)).state.searchers
      (toKey W (read cfg "use")) = some m)
    (hsearch : read m "search" = .fn f)
    (hperm : apply W (createSearchIndex W st (.str n) (.obj o)).state.searchers W.depth
      (read cfg "permission") (.obj cfg) [.str s] = .ok allowed)
    (hallow : truthy allowed = true) :
    ∃ merged : Obj,
      (search W (createSearchIndex W st (.str n) (.obj o)).state
          (.str n) (.str s) (.obj p) cb).calls
        = [.permission (.obj cfg) [.str s],
           .search (toKey W (read cfg "use")) [.str n, .str s, .obj merged, cb]]
      ∧ ∀ k : String, lookup merged k
          = if k ∈ keys p then lookup p k
            else if k ∈ keys (normalizeField o) then lookup (normalizeField o) k
            else lookup defaultOptions k := by
  refine ⟨extend cfg p, ?_, ?_⟩
  · rw [search_allowed W _ n s p cfg m cb allowed hcb hcfg hreg hperm hallow]
    simp [logCall, hsearch, isFunction]
  · intro k
    rw [createSearchIndex_state] at hcfg
    simp only [lookup_assign_same, Option.some.injEq] at hcfg
    subst hcfg
    rw [lookup_extend, lookup_extend]
    rfl

/-- C1, exercised: index `i` created with `demoOptions` on backend `k`, then
searched with the call-time option `limit: 5`. -/
theorem merge_precedence_witness :
    ∃ merged : Obj,
      (search demoWorld (createSearchIndex demoWorld demoBackend (.str "i") (.obj demoOptions)).state
          (.str "i") (.str "q") (.obj [("limit", .num 5)]) .undefined).calls
        = [.permission (.obj demoStored) [.str "q"],
           .search (toKey demoWorld (read demoStored "use"))
             [.str "i", .str "q", .obj merged, .undefined]]
      ∧ ∀ k : String, lookup merged k
          = if k ∈ keys ([("limit", .num 5)] : Obj) then lookup [("limit", .num 5)] k
            else if k ∈ keys (normalizeField demoOptions) then lookup (normalizeField demoOptions) k
            else lookup defaultOptions k :=
  merge_precedence demoWorld demoBackend "i" "q" demoOptions [("limit", .num 5)] demoStored
    demoMethods .undefined (.bool true) (.ext 1) rfl rfl rfl rfl rfl rfl

/-- C2 (permission short-circuit).  On a declared index whose backend is
registered and whose permission predicate returns a false value on the search
string, `search` returns exactly `{results: [], total: 0}`, makes no call of a
backend `search`, and leaves the whole registry state, and so the stored
configuration of the index, unchanged, whatever the call-time options. -/
theorem permission_short_circuit (W : World) (st : State) (n s : String) (o cfg m : Obj)
    (cb allowed : Value)
    (hcb : optionalFunction cb = true)
    (hcfg : lookup st.indexes n = some cfg)
    (hreg : lookup st.searchers (toKey W (read cfg "use")) = some m)
    (hperm : apply W st.searchers W.depth (read cfg "permission") (.obj cfg) [.str s]
      = .ok allowed)
    (hdeny : truthy allowed = false) :
    (search W st (.str n) (.str s) (.obj o) cb).result = .ok emptyResult
      ∧ (search W st (.str n) (.str s) (.obj o) cb).state = st
      ∧ (∀ c ∈ (search W st (.str n) (.str s) (.obj o) cb).calls,
          ∀ (kind : String) (args : List Value), c ≠ .search kind args)
      ∧ getIndex W (search W st (.str n) (.str s) (.obj o) cb).state (.str n) = .obj cfg := by
  rw [search_denied W st n s o cfg m cb allowed hcb hcfg hreg hperm hdeny]
  refine ⟨rfl, rfl, ?_, ?_⟩
  · intro c hc kind args hEq
    simp only [List.mem_singleton] at hc
    subst hc
    cases hEq
  · exact getIndex_own W st n cfg hcfg

/-- C2, exercised: index `i` with a denying predicate on the registered backend
`k`, searched with the non-empty call-time options `limit: 5`. -/
theorem permission_short_circuit_witness :
    (search demoWorld (createSearchIndex demoWorld demoBackend (.str "i") (.obj demoDenying)).state
        (.str "i") (.str "q") (.obj [("limit", .num 5)]) (.fn (.ext 7))).result = .ok emptyResult
      ∧ (search demoWorld (createSearchIndex demoWorld demoBackend (.str "i") (.obj demoDenying)).state
        (.str "i") (.str "q") (.obj [("limit", .num 5)]) (.fn (.ext 7))).state
          = (createSearchIndex demoWorld demoBackend (.str "i") (.obj demoDenying)).state :=
  let h := permission_short_circuit demoWorld
    (createSearchIndex demoWorld demoBackend (.str "i") (.obj demoDenying)).state
    "i" "q" [("limit", .num 5)] demoStoredDenying demoMethods (.fn (.ext 7)) (.bool false)
    rfl rfl rfl rfl rfl
  ⟨h.1, h.2.1⟩

/-- C3, refuted as stated: index `i` is declared with a permission predicate
that denies `q` and with the unregistered backend kind `nonexistent`; the
search does not return the empty result, it throws the error with code 500. -/
theorem permission_before_backend_counterexample :
    lookup (createSearchIndex demoWorld State.empty (.str "i") (.obj demoOrphan)).state.indexes "i"
        = some demoStoredOrphan
      ∧ apply demoWorld [] demoWorld.depth (read demoStoredOrphan "permission")
          (.obj demoStoredOrphan) [.str "q"] = .ok (.bool false)
      ∧ (search demoWorld (createSearchIndex demoWorld State.empty (.str "i") (.obj demoOrphan)).state
          (.str "i") (.str "q") (.obj []) .undefined).result
          = .error (.meteorError 500 "Couldnt search with the type: \x27nonexistent\x27")
      ∧ (search demoWorld (createSearchIndex demoWorld State.empty (.str "i") (.obj demoOrphan)).state
          (.str "i") (.str "q") (.obj []) .undefined).result ≠ .ok emptyResult :=
  ⟨rfl, rfl, rfl, fun h => nomatch h⟩

/-- C3, amended.  On a declared index whose permission predicate returns a
false value on the search string: when `Searchers[use]` is anything but
`undefined` (a registered backend, or a member that the backend map inherits)
the search returns the empty result and raises no error; when it is
`undefined` the search throws the error with code 500 and the predicate is not
called. -/
theorem permission_gate_after_backend_check (W : World) (st : State) (n s : String)
    (o cfg : Obj) (cb allowed : Value)
    (hcb : optionalFunction cb = true)
    (hcfg : lookup st.indexes n = some cfg)
    (hperm : apply W st.searchers W.depth (read cfg "permission") (.obj cfg) [.str s]
      = .ok allowed)
    (hdeny : truthy allowed = false) :
    (getSearcher W st (read cfg "use") ≠ .undefined →
        (search W st (.str n) (.str s) (.obj o) cb).result = .ok emptyResult)
      ∧ (getSearcher W st (read cfg "use") = .undefined →
          (search W st (.str n) (.str s) (.obj o) cb).result
              = .error (.meteorError 500 (unknownTypeReason W (read cfg "use")))
            ∧ (search W st (.str n) (.str s) (.obj o) cb).calls = []) := by
  constructor
  · intro hreg
    rw [search_denied_of_defined W st n s o cfg cb allowed hcb hcfg hreg hperm hdeny]
  · intro hreg
    rw [search_unregistered W st n s o cfg cb hcb hcfg hreg]
    exact ⟨rfl, rfl⟩

/-- C3 amended, exercised on the index of kind `nonexistent`, where the
predicate is not called, and on a denying index of kind `toString`, where
nothing is registered and the search returns the empty result. -/
theorem permission_gate_after_backend_check_witness :
    (search demoWorld (createSearchIndex demoWorld State.empty (.str "i") (.obj demoOrphan)).state
        (.str "i") (.str "q") (.obj []) .undefined).calls = []
      ∧ (search demoWorld
          (createSearchIndex demoWorld State.empty (.str "i") (.obj demoInheritedDenying)).state
          (.str "i") (.str "q") (.obj []) .undefined).result = .ok emptyResult :=
  ⟨((permission_gate_after_backend_check demoWorld
      (createSearchIndex demoWorld State.empty (.str "i") (.obj demoOrphan)).state
      "i" "q" [] demoStoredOrphan .undefined (.bool false) rfl rfl rfl rfl).2 rfl).2,
    (permission_gate_after_backend_check demoWorld
      (createSearchIndex demoWorld State.empty (.str "i") (.obj demoInheritedDenying)).state
      "i" "q" [] demoStoredInheritedDenying .undefined (.bool false) rfl rfl rfl rfl).1
      (fun h => nomatch h)⟩

/-- C4, refuted as stated: index `i` is declared with `use: "toString"`, a kind
that nobody registers.  `Searchers["toString"]` is the function that the map
inherits, so the guard of line 78 does not fire: the search runs the
predicate, merges the call-time option `limit: 5` into the stored
configuration and then throws a `TypeError`, not the error with code 500. -/
theorem unknown_backend_counterexample :
    lookup State.empty.searchers "toString" = none
      ∧ getIndex demoWorld
          (createSearchIndex demoWorld State.empty (.str "i") (.obj demoInherited)).state (.str "i")
          = .obj demoStoredInherited
      ∧ read demoStoredInherited "use" = .str "toString"
      ∧ (search demoWorld
          (createSearchIndex demoWorld State.empty (.str "i") (.obj demoInherited)).state
          (.str "i") (.str "q") (.obj [("limit", .num 5)]) .undefined).result = .error .typeError
      ∧ (∃ cfg : Obj,
          getIndex demoWorld
              (search demoWorld
                (createSearchIndex demoWorld State.empty (.str "i") (.obj demoInherited)).state
                (.str "i") (.str "q") (.obj [("limit", .num 5)]) .undefined).state (.str "i")
            = .obj cfg
          ∧ read cfg "limit" = .num 5 ∧ read demoStoredInherited "limit" = .num 10) :=
  ⟨rfl, rfl, rfl, rfl, _, rfl, rfl, rfl⟩

/-- C4, amended.  On a declared index whose stored `use` value names nothing
in the backend map, neither a registered backend nor a member that the map
inherits (`Searchers[use]` is `undefined`), a well-typed `search` throws the
framework error with code 500 whose reason contains the text of the missing
kind, and the registry state is unchanged. -/
theorem unknown_backend_error (W : World) (st : State) (n s : String) (o cfg : Obj) (cb : Value)
    (hcb : optionalFunction cb = true)
    (hcfg : lookup st.indexes n = some cfg)
    (hreg : getSearcher W st (read cfg "use") = .undefined) :
    ∃ reason : String,
      (search W st (.str n) (.str s) (.obj o) cb).result = .error (.meteorError 500 reason)
      ∧ (∃ pre post : String, reason = pre ++ Value.text W (read cfg "use") ++ post)
      ∧ (search W st (.str n) (.str s) (.obj o) cb).state = st := by
  rw [search_unregistered W st n s o cfg cb hcb hcfg hreg]
  exact ⟨_, rfl, ⟨_, _, rfl⟩, rfl⟩

/-- C4 amended, exercised: the index of kind `nonexistent`, searched with
nothing registered. -/
theorem unknown_backend_error_witness :
    ∃ reason : String,
      (search demoWorld (createSearchIndex demoWorld State.empty (.str "i") (.obj demoOrphan)).state
        (.str "i") (.str "q") (.obj []) .undefined).result = .error (.meteorError 500 reason)
      ∧ (∃ pre post : String, reason = pre ++ "nonexistent" ++ post)
      ∧ (search demoWorld (createSearchIndex demoWorld State.empty (.str "i") (.obj demoOrphan)).state
        (.str "i") (.str "q") (.obj []) .undefined).state
          = (createSearchIndex demoWorld State.empty (.str "i") (.obj demoOrphan)).state :=
  unknown_backend_error demoWorld
    (createSearchIndex demoWorld State.empty (.str "i") (.obj demoOrphan)).state
    "i" "q" [] demoStoredOrphan .undefined rfl rfl rfl

/-! ## Index creation -/

theorem read_extend_of_mem (dst src : Obj) (k : String) (h : k ∈ keys src) :
    read (extend dst src) k = read src k := by
  simp [read, lookup_extend, h]

theorem read_normalizeField_field (o : Obj) :
    read (normalizeField o) "field"
      = if isArray (read o "field") then read o "field" else .arr [read o "field"] := by
  simp [read, normalizeField, lookup_assign_same]

theorem lookup_normalizeField_ne (o : Obj) (k : String) (h : k ≠ "field") :
    lookup (normalizeField o) k = lookup o k := by
  simp [normalizeField, lookup_assign_ne _ _ _ _ h]

theorem field_mem_keys_normalizeField (o : Obj) : "field" ∈ keys (normalizeField o) := by
  simp [normalizeField, mem_keys_assign]

theorem createSearchIndex_ok_inv (W : World) (st : State) (name options r : Value)
    (hok : (createSearchIndex W st name options).result = .ok r) :
    ∃ (n : String) (o : Obj), name = .str n ∧ options = .obj o := by
  cases name <;> cases options <;> first
    | exact ⟨_, _, rfl, rfl⟩
    | (simp [createSearchIndex] at hok)

/-- C5 (round trip and overwrite).  From every registry state, after a
successful `createSearchIndex(name, opts)` the configuration `getIndex(name)`
is exactly the default template overlaid with `opts` after field
normalization: a key of `opts` has the value of `opts`, any other key has its
default value, and a key in neither is absent, whatever the name held before. -/
theorem roundtrip_overwrite (W : World) (st : State) (name options r : Value)
    (hok : (createSearchIndex W st name options).result = .ok r) :
    ∃ (n : String) (o : Obj), name = .str n ∧ options = .obj o
      ∧ getIndex W (createSearchIndex W st name options).state name
          = .obj (extend (clone defaultOptions) (normalizeField o))
      ∧ (∀ k : String, lookup (extend (clone defaultOptions) (normalizeField o)) k
          = if k ∈ keys (normalizeField o) then lookup (normalizeField o) k
            else lookup defaultOptions k)
      ∧ (∀ k : String, k ∉ keys (normalizeField o) → k ∉ keys defaultOptions →
          lookup (extend (clone defaultOptions) (normalizeField o)) k = none) := by
  obtain ⟨n, o, hn, ho⟩ := createSearchIndex_ok_inv W st name options r hok
  subst hn ho
  refine ⟨n, o, rfl, rfl, ?_, ?_, ?_⟩
  · rw [createSearchIndex_state]
    simp [getIndex, toKey_str, mapGet_assign_same]
  · intro k
    rw [lookup_extend]
    rfl
  · intro k hk hd
    rw [lookup_extend]
    simp only [hk, if_false]
    exact lookup_none_of_not_mem _ _ hd

/-- C5, exercised: index `i`, first created with a denying predicate, is
created again with `demoOptions`. -/
theorem roundtrip_overwrite_witness :
    ∃ (n : String) (o : Obj), Value.str "i" = .str n ∧ Value.obj demoOptions = .obj o
      ∧ getIndex demoWorld (createSearchIndex demoWorld
            (createSearchIndex demoWorld demoBackend (.str "i") (.obj demoDenying)).state
            (.str "i") (.obj demoOptions)).state (.str "i")
          = .obj (extend (clone defaultOptions) (normalizeField o))
      ∧ (∀ k : String, lookup (extend (clone defaultOptions) (normalizeField o)) k
          = if k ∈ keys (normalizeField o) then lookup (normalizeField o) k
            else lookup defaultOptions k)
      ∧ (∀ k : String, k ∉ keys (normalizeField o) → k ∉ keys defaultOptions →
          lookup (extend (clone defaultOptions) (normalizeField o)) k = none) :=
  roundtrip_overwrite demoWorld
    (createSearchIndex demoWorld demoBackend (.str "i") (.obj demoDenying)).state
    (.str "i") (.obj demoOptions) .undefined rfl

/-- C6 (field normalization).  For every options record, after
`createSearchIndex(name, options)` the stored `field` value is a sequence: the
supplied sequence itself when `options.field` was one, and otherwise the
one-element sequence holding the supplied value. -/
theorem field_normalization (W : World) (st : State) (n : String) (o : Obj) :
    ∃ cfg : Obj,
      getIndex W (createSearchIndex W st (.str n) (.obj o)).state (.str n) = .obj cfg
      ∧ isArray (read cfg "field") = true
      ∧ (∀ xs : List Value, read o "field" = .arr xs → read cfg "field" = .arr xs)
      ∧ (isArray (read o "field") = false → read cfg "field" = .arr [read o "field"]) := by
  refine ⟨extend (clone defaultOptions) (normalizeField o), ?_, ?_, ?_, ?_⟩
  · rw [createSearchIndex_state]
    simp [getIndex, toKey_str, mapGet_assign_same]
  · rw [read_extend_of_mem _ _ _ (field_mem_keys_normalizeField o), read_normalizeField_field]
    cases h : isArray (read o "field")
    · simp [isArray]
    · simpa using h
  · intro xs hxs
    rw [read_extend_of_mem _ _ _ (field_mem_keys_normalizeField o), read_normalizeField_field]
    simp [hxs, isArray]
  · intro h
    rw [read_extend_of_mem _ _ _ (field_mem_keys_normalizeField o), read_normalizeField_field]
    simp [h]

/-- C7, evaluated at the failing input: after `createSearcher("k", ..)`,
`createSearchIndex("i", {use: "k", field: "x"})` and
`search("i", "q", {field: "y"})` the stored `field` of index `i` is the scalar
`"y"`, not a sequence. -/
theorem field_sequence_broken_by_search :
    (search demoWorld (createSearchIndex demoWorld demoBackend (.str "i") (.obj demoOptions)).state
        (.str "i") (.str "q") (.obj [("field", .str "y")]) .undefined).result = .ok (.bool true)
      ∧ ∃ cfg : Obj, getIndex demoWorld demoWidened (.str "i") = .obj cfg
          ∧ read cfg "field" = .str "y"
          ∧ isArray (read cfg "field") = false :=
  ⟨rfl, _, rfl, rfl, rfl⟩

/-! ## The backend registry -/

theorem createSearcher_obj (st : State) (k : String) (m : Obj) :
    createSearcher st (.str k) (.obj m)
      = if isFunction (read m "search") && isFunction (read m "createSearchIndex")
            && isFunction (read m "defaultQuery") && isFunction (read m "defaultSort") then
          ⟨.ok .undefined, { st with searchers := assign st.searchers k m }, []⟩
        else ⟨.error .matchError, st, []⟩ := rfl

theorem createSearcher_ok_obj (st : State) (k : String) (m : Obj) (r : Value)
    (hok : (createSearcher st (.str k) (.obj m)).result = .ok r) :
    (createSearcher st (.str k) (.obj m)).state = { st with searchers := assign st.searchers k m }
      ∧ isFunction (read m "search") = true ∧ isFunction (read m "createSearchIndex") = true
      ∧ isFunction (read m "defaultQuery") = true ∧ isFunction (read m "defaultSort") = true := by
  rw [createSearcher_obj] at hok ⊢
  by_cases h : (isFunction (read m "search") && isFunction (read m "createSearchIndex")
      && isFunction (read m "defaultQuery") && isFunction (read m "defaultSort")) = true
  · rw [if_pos h]
    simp only [Bool.and_eq_true] at h
    exact ⟨rfl, h.1.1.1, h.1.1.2, h.1.2, h.2⟩
  · rw [if_neg h] at hok
    cases hok

theorem createSearcher_ok_inv (st : State) (key methods r : Value)
    (hok : (createSearcher st key methods).result = .ok r) :
    ∃ (k : String) (m : Obj), key = .str k ∧ methods = .obj m
      ∧ (createSearcher st key methods).state = { st with searchers := assign st.searchers k m }
      ∧ isFunction (read m "search") = true ∧ isFunction (read m "createSearchIndex") = true
      ∧ isFunction (read m "defaultQuery") = true ∧ isFunction (read m "defaultSort") = true := by
  cases key <;> cases methods <;>
    first
    | exact ⟨_, _, rfl, rfl, createSearcher_ok_obj st _ _ r hok⟩
    | (simp [createSearcher] at hok)

theorem createSearcher_validation_obj (st : State) (k : String) (m : Obj) :
    ((createSearcher st (.str k) (.obj m)).result = .ok .undefined ↔
        (isFunction (read m "search") = true ∧ isFunction (read m "createSearchIndex") = true
          ∧ isFunction (read m "defaultQuery") = true ∧ isFunction (read m "defaultSort") = true))
      ∧ (∀ e : Err, (createSearcher st (.str k) (.obj m)).result = .error e →
          (createSearcher st (.str k) (.obj m)).state = st ∧ e = .matchError)
      ∧ ((createSearcher st (.str k) (.obj m)).result = .ok .undefined
          ∨ ∃ e : Err, (createSearcher st (.str k) (.obj m)).result = .error e) := by
  rw [createSearcher_obj]
  by_cases h : (isFunction (read m "search") && isFunction (read m "createSearchIndex")
      && isFunction (read m "defaultQuery") && isFunction (read m "defaultSort")) = true
  · rw [if_pos h]
    simp only [Bool.and_eq_true] at h
    refine ⟨⟨fun _ => ⟨h.1.1.1, h.1.1.2, h.1.2, h.2⟩, fun _ => rfl⟩, ?_, Or.inl rfl⟩
    intro e he
    cases he
  · rw [if_neg h]
    simp only [Bool.and_eq_true] at h
    refine ⟨⟨fun hc => (by cases hc), fun hc => ?_⟩, ?_, Or.inr ⟨_, rfl⟩⟩
    · exact absurd ⟨⟨⟨hc.1, hc.2.1⟩, hc.2.2.1⟩, hc.2.2.2⟩ h
    · intro e he
      cases he
      exact ⟨rfl, rfl⟩

/-- C8, refuted as stated: `createSearcher("k", undefined)` has a string kind
and no function members, yet it does not fail with a type-constraint
violation: reading `methods.search` throws a `TypeError`. -/
theorem createSearcher_validation_counterexample :
    isString (.str "k") = true
      ∧ hasFunction .undefined "search" = false
      ∧ (createSearcher State.empty (.str "k") .undefined).result = .error .typeError
      ∧ (createSearcher State.empty (.str "k") .undefined).result ≠ .error .matchError :=
  ⟨rfl, rfl, rfl, fun h => nomatch h⟩

/-- C8, amended.  `createSearcher(kind, methods)` succeeds if and only if `kind`
is a string and each of `methods.search`, `methods.createSearchIndex`,
`methods.defaultQuery` and `methods.defaultSort` is a function.  Every failing
call leaves the registry unchanged; it fails with a type-constraint violation,
except that with a string `kind` and `methods` equal to `undefined` or `null`
it fails with the `TypeError` of the member read. -/
theorem createSearcher_validation (st : State) (key methods : Value) :
    ((createSearcher st key methods).result = .ok .undefined ↔
        (isString key = true ∧ hasFunction methods "search" = true
          ∧ hasFunction methods "createSearchIndex" = true
          ∧ hasFunction methods "defaultQuery" = true
          ∧ hasFunction methods "defaultSort" = true))
      ∧ (∀ e : Err, (createSearcher st key methods).result = .error e →
          (createSearcher st key methods).state = st
            ∧ (e = .matchError
                ∨ (e = .typeError ∧ isString key = true
                    ∧ (methods = .undefined ∨ methods = .null))))
      ∧ ((createSearcher st key methods).result = .ok .undefined
          ∨ ∃ e : Err, (createSearcher st key methods).result = .error e)
      ∧ (isString key = true → (methods = .undefined ∨ methods = .null) →
          (createSearcher st key methods).result = .error .typeError) := by
  cases key <;> cases methods
  case str.obj k m =>
    have h := createSearcher_validation_obj st k m
    refine ⟨⟨fun hc => ⟨rfl, h.1.1 hc⟩, fun hc => h.1.2 hc.2⟩, ?_, h.2.2, ?_⟩
    · intro e he
      exact ⟨(h.2.1 e he).1, Or.inl (h.2.1 e he).2⟩
    · intro _ hm
      rcases hm with hm | hm <;> cases hm
  all_goals simp [createSearcher, isString, hasFunction, member, isFunction]

/-- C9, refuted as stated: `createSearcher("__proto__", demoMethods)` succeeds
and makes the descriptor the prototype of the backend map, so that
`getSearcher("search")`, a key different from the kind, changes from
`undefined` to the member `search` of the descriptor. -/
theorem searcher_roundtrip_counterexample :
    (createSearcher State.empty (.str "__proto__") (.obj demoMethods)).result = .ok .undefined
      ∧ toKey demoWorld (.str "search") ≠ toKey demoWorld (.str "__proto__")
      ∧ getSearcher demoWorld State.empty (.str "search") = .undefined
      ∧ getSearcher demoWorld
          (createSearcher State.empty (.str "__proto__") (.obj demoMethods)).state (.str "search")
          = .fn (.ext 1) :=
  ⟨rfl, by decide, rfl, rfl⟩

/-- C9, amended.  After a successful `createSearcher(kind, methods)`,
`getSearcher(kind)` is exactly `methods`; for a kind other than `__proto__`,
`getSearcher` is unchanged on every other key; for every kind, every other
registered backend still reads as it did; and the index registry is
unchanged. -/
theorem searcher_roundtrip (W : World) (st : State) (kind methods r : Value)
    (hok : (createSearcher st kind methods).result = .ok r) :
    getSearcher W (createSearcher st kind methods).state kind = methods
      ∧ (toKey W kind ≠ "__proto__" →
          ∀ other : Value, toKey W other ≠ toKey W kind →
            getSearcher W (createSearcher st kind methods).state other = getSearcher W st other)
      ∧ (∀ (other : Value) (m1 : Obj), toKey W other ≠ toKey W kind →
          lookup st.searchers (toKey W other) = some m1 →
          getSearcher W (createSearcher st kind methods).state other = .obj m1)
      ∧ (createSearcher st kind methods).state.indexes = st.indexes := by
  obtain ⟨k, m, hk, hm, hst, -⟩ := createSearcher_ok_inv st kind methods r hok
  rw [hst]
  subst hk hm
  refine ⟨?_, ?_, ?_, rfl⟩
  · simp [getSearcher, toKey_str, mapGet_assign_same]
  · intro hproto other hne
    rw [toKey_str] at hne hproto
    simp [getSearcher, mapGet_assign_ne _ _ _ _ hproto hne]
  · intro other m1 hne hreg
    rw [toKey_str] at hne
    exact getSearcher_own W _ other m1 (by
      show lookup (assign st.searchers k m) (toKey W other) = some m1
      rw [lookup_assign_ne _ _ _ _ hne]
      exact hreg)

/-- C9 amended, exercised: backend `k` is registered again, with a descriptor
that differs from the one it had. -/
theorem searcher_roundtrip_witness :
    getSearcher demoWorld
        (createSearcher demoBackend (.str "k") (.obj (("extra", .num 1) :: demoMethods))).state
        (.str "k") = .obj (("extra", .num 1) :: demoMethods)
      ∧ (∀ other : Value, toKey demoWorld other ≠ toKey demoWorld (.str "k") →
          getSearcher demoWorld
              (createSearcher demoBackend (.str "k") (.obj (("extra", .num 1) :: demoMethods))).state
              other
            = getSearcher demoWorld demoBackend other)
      ∧ (createSearcher demoBackend (.str "k") (.obj (("extra", .num 1) :: demoMethods))).state.indexes
          = demoBackend.indexes :=
  let h := searcher_roundtrip demoWorld demoBackend (.str "k")
    (.obj (("extra", .num 1) :: demoMethods)) .undefined rfl
  ⟨h.1, h.2.1 (by decide), h.2.2.2⟩

/-! ## The create-index hook -/

theorem read_normalizeField_use (o : Obj) : read (normalizeField o) "use" = read o "use" := by
  simp [read, lookup_normalizeField_ne o "use" (by decide)]

/-- C10, refuted as stated: with `options.use = "constructor"`, a kind that
nobody registers, `createSearchIndex` does raise an error.
`Searchers["constructor"]` is the function that the map inherits, a true value,
so line 60 calls its member `createSearchIndex`, which is `undefined`: a
`TypeError`, with no hook invoked. -/
theorem create_index_hook_counterexample :
    lookup State.empty.searchers "constructor" = none
      ∧ read demoConstructor "use" = .str "constructor"
      ∧ (createSearchIndex demoWorld State.empty (.str "i") (.obj demoConstructor)).result
          = .error .typeError
      ∧ (createSearchIndex demoWorld State.empty (.str "i") (.obj demoConstructor)).result
          ≠ .ok .undefined
      ∧ (createSearchIndex demoWorld State.empty (.str "i") (.obj demoConstructor)).calls = [] :=
  ⟨rfl, rfl, rfl, (fun h => nomatch h), rfl⟩

/-- C10, amended.  With `options.use = k`, `createSearchIndex(name, options)`
invokes the hook of backend `k` exactly once, with the name and the caller's
options record (as it stands after the assignment to `options.field`, which
leaves every other key as supplied) and not the merged configuration, and
ends as that call ends, when `k` is registered; it invokes nothing and raises
no error when `Searchers[k]` is `undefined`; it invokes nothing and throws a
`TypeError` when `Searchers[k]` is a built-in function that the map inherits;
in all cases the merged configuration is stored under the name. -/
theorem create_index_hook (W : World) (st : State) (n : String) (o : Obj) (k : Value)
    (huse : read o "use" = k) :
    (∀ (m : Obj) (f : Fn), lookup st.searchers (toKey W k) = some m →
        read m "createSearchIndex" = .fn f →
        (createSearchIndex W st (.str n) (.obj o)).calls
            = [.createSearchIndex (toKey W k) [.str n, .obj (normalizeField o)]]
          ∧ (createSearchIndex W st (.str n) (.obj o)).result
            = (apply W st.searchers W.depth (.fn f) (.obj m)
                [.str n, .obj (normalizeField o)]).map (fun _ => .undefined))
      ∧ (getSearcher W st k = .undefined →
          (createSearchIndex W st (.str n) (.obj o)).calls = []
            ∧ (createSearchIndex W st (.str n) (.obj o)).result = .ok .undefined)
      ∧ (∀ name : String, getSearcher W st k = .fn (.native name) →
          (createSearchIndex W st (.str n) (.obj o)).calls = []
            ∧ (createSearchIndex W st (.str n) (.obj o)).result = .error .typeError)
      ∧ lookup (createSearchIndex W st (.str n) (.obj o)).state.indexes n
          = some (extend (clone defaultOptions) (normalizeField o))
      ∧ (∀ key : String, key ≠ "field" → lookup (normalizeField o) key = lookup o key) := by
  subst huse
  refine ⟨?_, ?_, ?_, ?_, fun key h => lookup_normalizeField_ne o key h⟩
  · intro m f hreg hhook
    simp [createSearchIndex, read_normalizeField_use, mapGet_own _ _ _ hreg, truthy, member,
      hhook, logCall, isFunction]
  · intro hreg
    simp only [getSearcher] at hreg
    simp [createSearchIndex, read_normalizeField_use, hreg, truthy]
  · intro name hreg
    simp only [getSearcher] at hreg
    cases hd : W.depth <;>
      simp [createSearchIndex, read_normalizeField_use, hreg, truthy, member, logCall,
        isFunction, apply, hd, Except.map]
  · rw [createSearchIndex_state]
    simp [lookup_assign_same]

/-- C10 amended, exercised: index `i` created with `demoOptions` while backend
`k` is registered; the hook receives the options record, which lacks the
default keys of the stored configuration, and the call ends as the hook
does. -/
theorem create_index_hook_witness :
    ((createSearchIndex demoWorld demoBackend (.str "i") (.obj demoOptions)).calls
        = [.createSearchIndex "k" [.str "i", .obj [("use", .str "k"), ("field", .arr [.str "x"])]]]
      ∧ (createSearchIndex demoWorld demoBackend (.str "i") (.obj demoOptions)).result
        = (apply demoWorld demoBackend.searchers demoWorld.depth (.fn (.ext 2)) (.obj demoMethods)
            [.str "i", .obj (normalizeField demoOptions)]).map (fun _ => .undefined))
      ∧ lookup (createSearchIndex demoWorld demoBackend (.str "i") (.obj demoOptions)).state.indexes "i"
          = some demoStored :=
  ⟨(create_index_hook demoWorld demoBackend "i" demoOptions (.str "k") rfl).1
      demoMethods (.ext 2) rfl rfl,
    (create_index_hook demoWorld demoBackend "i" demoOptions (.str "k") rfl).2.2.2.1⟩

/-! ## Registered backends keep their four functions -/

theorem all_assign {α : Type} (P : α → Bool) (l : List (String × α)) (k : String) (v : α)
    (hl : l.all (fun p => P p.2) = true) (hv : P v = true) :
    (assign l k v).all (fun p => P p.2) = true := by
  induction l with
  | nil => simp [assign, hv]
  | cons p r ih =>
    obtain ⟨a, b⟩ := p
    simp only [List.all_cons, Bool.and_eq_true] at hl
    by_cases h : a = k
    · simp only [assign, h, if_true, List.all_cons, Bool.and_eq_true]
      exact ⟨hv, hl.2⟩
    · simp only [assign, h, if_false, List.all_cons, Bool.and_eq_true]
      exact ⟨hl.1, ih hl.2⟩

theorem all_lookup {α : Type} (P : α → Bool) (l : List (String × α)) (k : String) (v : α)
    (hl : l.all (fun p => P p.2) = true) (hk : lookup l k = some v) : P v = true := by
  induction l with
  | nil => simp [lookup] at hk
  | cons p r ih =>
    obtain ⟨a, b⟩ := p
    simp only [List.all_cons, Bool.and_eq_true] at hl
    by_cases h : a = k
    · simp only [lookup, h, if_true, Option.some.injEq] at hk
      subst hk
      exact hl.1
    · simp only [lookup, h, if_false] at hk
      exact ih hl.2 hk

theorem validBackends_empty : validBackends State.empty = true := rfl

theorem validMethods_of_registered (W : World) (st : State) (kind : Value) (m : Obj)
    (hv : validBackends st = true) (hreg : lookup st.searchers (toKey W kind) = some m) :
    validMethods m = true :=
  all_lookup validMethods st.searchers _ _ hv hreg

theorem createSearcher_validBackends (st : State) (key methods : Value)
    (hv : validBackends st = true) :
    validBackends (createSearcher st key methods).state = true := by
  cases key <;> cases methods
  case str.obj k m =>
    rw [createSearcher_obj]
    by_cases h : (isFunction (read m "search") && isFunction (read m "createSearchIndex")
        && isFunction (read m "defaultQuery") && isFunction (read m "defaultSort")) = true
    · rw [if_pos h]
      exact all_assign validMethods st.searchers k m hv h
    · rw [if_neg h]
      exact hv
  all_goals exact hv

theorem createSearchIndex_searchers (W : World) (st : State) (name options : Value) :
    (createSearchIndex W st name options).state.searchers = st.searchers := by
  unfold createSearchIndex
  split
  · dsimp only
    split
    · split <;> rfl
    · rfl
  · rfl

theorem search_searchers (W : World) (st : State) (name searchString options callback : Value) :
    (search W st name searchString options callback).state.searchers = st.searchers := by
  unfold search
  repeat' (first | rfl | split | (dsimp only; split))

/-! ## The create-index hook and the inherited backend kind -/

/-- C11, evaluated at the failing input: with a backend registered under
`minimongo`, `createSearchIndex("i", {field: "x"})` stores a configuration whose
`use` is the inherited `minimongo`, yet it invokes no hook: the lookup of line
60 goes by `options.use`, which is `undefined`. -/
theorem inherited_kind_hook_not_invoked :
    getSearcher demoWorld demoMinimongo (.str "minimongo") = .obj demoMethods
      ∧ lookup demoNoUse "use" = none
      ∧ (∃ cfg : Obj,
          getIndex demoWorld
              (createSearchIndex demoWorld demoMinimongo (.str "i") (.obj demoNoUse)).state
              (.str "i") = .obj cfg
            ∧ read cfg "use" = .str "minimongo")
      ∧ (createSearchIndex demoWorld demoMinimongo (.str "i") (.obj demoNoUse)).calls = []
      ∧ (createSearchIndex demoWorld demoMinimongo (.str "i") (.obj demoNoUse)).result
          = .ok .undefined :=
  ⟨rfl, rfl, ⟨_, rfl, rfl⟩, rfl, rfl⟩

/-! ## Pass-through and persistence of a permitted search -/

/-- C12 (result pass-through).  On a declared index whose backend is registered
and whose permission predicate holds on the search string, `search` calls the
backend's `search` exactly once, with the same name, the same search string,
the merged configuration and the same callback, and its outcome is exactly the
outcome of that call. -/
theorem result_pass_through (W : World) (st : State) (n s : String) (o cfg m : Obj)
    (cb allowed : Value) (f : Fn)
    (hcb : optionalFunction cb = true)
    (hcfg : lookup st.indexes n = some cfg)
    (hreg : lookup st.searchers (toKey W (read cfg "use")) = some m)
    (hsearch : read m "search" = .fn f)
    (hperm : apply W st.searchers W.depth (read cfg "permission") (.obj cfg) [.str s]
      = .ok allowed)
    (hallow : truthy allowed = true) :
    (search W st (.str n) (.str s) (.obj o) cb).calls
        = [.permission (.obj cfg) [.str s],
           .search (toKey W (read cfg "use")) [.str n, .str s, .obj (extend cfg o), cb]]
      ∧ (search W st (.str n) (.str s) (.obj o) cb).result
          = apply W st.searchers W.depth (.fn f) (.obj m)
              [.str n, .str s, .obj (extend cfg o), cb] := by
  rw [search_allowed W st n s o cfg m cb allowed hcb hcfg hreg hperm hallow]
  simp [logCall, hsearch, isFunction]

/-- C12, exercised: the backend function of `demoMethods` returns `true`, which
is not of the shape of a search result, and `search` returns it as it is. -/
theorem result_pass_through_witness :
    (search demoWorld (createSearchIndex demoWorld demoBackend (.str "i") (.obj demoOptions)).state
        (.str "i") (.str "q") (.obj []) (.fn (.ext 9))).calls
        = [.permission (.obj demoStored) [.str "q"],
           .search "k" [.str "i", .str "q", .obj demoStored, .fn (.ext 9)]]
      ∧ (search demoWorld (createSearchIndex demoWorld demoBackend (.str "i") (.obj demoOptions)).state
        (.str "i") (.str "q") (.obj []) (.fn (.ext 9))).result = .ok (.bool true) :=
  result_pass_through demoWorld
    (createSearchIndex demoWorld demoBackend (.str "i") (.obj demoOptions)).state
    "i" "q" [] demoStored demoMethods (.fn (.ext 9)) (.bool true) (.ext 1) rfl rfl rfl rfl rfl rfl

/-- C13 (call-time overrides persist).  On a declared index whose backend is
registered and whose permission predicate holds on the search string, after
`search(name, s, options)` the stored configuration is the previous one
overlaid with `options`: a key of `options` has the value of `options`, every
other key keeps its value; and it is the configuration the backend received. -/
theorem overrides_persist (W : World) (st : State) (n s : String) (o cfg m : Obj)
    (cb allowed : Value) (f : Fn)
    (hcb : optionalFunction cb = true)
    (hcfg : lookup st.indexes n = some cfg)
    (hreg : lookup st.searchers (toKey W (read cfg "use")) = some m)
    (hsearch : read m "search" = .fn f)
    (hperm : apply W st.searchers W.depth (read cfg "permission") (.obj cfg) [.str s]
      = .ok allowed)
    (hallow : truthy allowed = true) :
    ∃ merged : Obj,
      getIndex W (search W st (.str n) (.str s) (.obj o) cb).state (.str n) = .obj merged
      ∧ (∀ k : String, lookup merged k = if k ∈ keys o then lookup o k else lookup cfg k)
      ∧ (search W st (.str n) (.str s) (.obj o) cb).calls
          = [.permission (.obj cfg) [.str s],
             .search (toKey W (read cfg "use")) [.str n, .str s, .obj merged, cb]] := by
  refine ⟨extend cfg o, ?_, fun k => lookup_extend cfg o k, ?_⟩
  · rw [search_allowed W st n s o cfg m cb allowed hcb hcfg hreg hperm hallow]
    simp [getIndex, toKey_str, mapGet_assign_same]
  · rw [search_allowed W st n s o cfg m cb allowed hcb hcfg hreg hperm hallow]
    simp [logCall, hsearch, isFunction]

/-- C13, exercised: a search with the call-time option `limit: 5` on an index
stored with `limit: 10`. -/
theorem overrides_persist_witness :
    ∃ merged : Obj,
      getIndex demoWorld
          (search demoWorld
            (createSearchIndex demoWorld demoBackend (.str "i") (.obj demoOptions)).state
            (.str "i") (.str "q") (.obj [("limit", .num 5)]) .undefined).state (.str "i")
        = .obj merged
      ∧ (∀ k : String, lookup merged k
          = if k ∈ keys ([("limit", .num 5)] : Obj) then lookup [("limit", .num 5)] k
            else lookup demoStored k)
      ∧ (search demoWorld
            (createSearchIndex demoWorld demoBackend (.str "i") (.obj demoOptions)).state
            (.str "i") (.str "q") (.obj [("limit", .num 5)]) .undefined).calls
          = [.permission (.obj demoStored) [.str "q"],
             .search (toKey demoWorld (read demoStored "use"))
               [.str "i", .str "q", .obj merged, .undefined]] :=
  overrides_persist demoWorld
    (createSearchIndex demoWorld demoBackend (.str "i") (.obj demoOptions)).state
    "i" "q" [("limit", .num 5)] demoStored demoMethods .undefined (.bool true) (.ext 1)
    rfl rfl rfl rfl rfl rfl

/-! ## Validation of the arguments -/

/-- C14 (validation of `createSearchIndex` is atomic).  From every registry
state, when `name` is not a string or `options` is not a record,
`createSearchIndex(name, options)` fails with a type-constraint violation,
leaves the state as it was, so that every `getIndex` result is unchanged, and
invokes no backend hook. -/
theorem createSearchIndex_validation (W : World) (st : State) (name options : Value)
    (hbad : isString name = false ∨ isObject options = false) :
    (createSearchIndex W st name options).result = .error .matchError
      ∧ (createSearchIndex W st name options).state = st
      ∧ (∀ other : Value,
          getIndex W (createSearchIndex W st name options).state other = getIndex W st other)
      ∧ (createSearchIndex W st name options).calls = [] := by
  have h : createSearchIndex W st name options = ⟨.error .matchError, st, []⟩ := by
    unfold createSearchIndex
    split
    · simp [isString, isObject] at hbad
    · rfl
  rw [h]
  exact ⟨rfl, rfl, fun _ => rfl, rfl⟩

/-- C14, exercised: a sequence passed as `options` while index `i` exists and
backend `k` is registered. -/
theorem createSearchIndex_validation_witness :
    (createSearchIndex demoWorld
        (createSearchIndex demoWorld demoBackend (.str "i") (.obj demoOptions)).state
        (.str "i") (.arr [.str "x"])).result = .error .matchError
      ∧ (createSearchIndex demoWorld
        (createSearchIndex demoWorld demoBackend (.str "i") (.obj demoOptions)).state
        (.str "i") (.arr [.str "x"])).calls = [] :=
  let h := createSearchIndex_validation demoWorld
    (createSearchIndex demoWorld demoBackend (.str "i") (.obj demoOptions)).state
    (.str "i") (.arr [.str "x"]) (Or.inr rfl)
  ⟨h.1, h.2.2.2⟩

/-- C15, refuted as stated: `search("nope", 5, {})` has a search string that is
not a string, but `nope` is not declared: the call fails with a `TypeError`
(reading `indexes[name].use` at line 71), not with a type-constraint
violation. -/
theorem search_validation_counterexample :
    isString (.num 5) = false
      ∧ getIndex demoWorld demoBackend (.str "nope") = .undefined
      ∧ (search demoWorld demoBackend (.str "nope") (.num 5) (.obj []) .undefined).result
          = .error .typeError
      ∧ (search demoWorld demoBackend (.str "nope") (.num 5) (.obj []) .undefined).result
          ≠ .error .matchError :=
  ⟨rfl, rfl, rfl, fun h => nomatch h⟩

/-- C15, amended.  When `indexes[name]` is `undefined` or `null`, every call
of `search` fails with a `TypeError` (line 71 reads its member `use`), with the
state unchanged and nothing called.  Otherwise, and so for every declared
index, a call in which `name` or `searchString` is not a string, `options` is
not a record, or `callback` is present and not a function fails with a
type-constraint violation, also when the backend kind of the index is
unregistered, with the state unchanged and no backend function or permission
predicate called. -/
theorem search_validation (W : World) (st : State) (name searchString options callback : Value) :
    (∀ use : Value, member (getIndex W st name) "use" = .ok use →
        (isString name = false ∨ isString searchString = false ∨ isObject options = false
          ∨ optionalFunction callback = false) →
        search W st name searchString options callback = ⟨.error .matchError, st, []⟩)
      ∧ (∀ cfg : Obj, lookup st.indexes (toKey W name) = some cfg →
          member (getIndex W st name) "use" = .ok (read cfg "use"))
      ∧ ((getIndex W st name = .undefined ∨ getIndex W st name = .null) →
          search W st name searchString options callback = ⟨.error .typeError, st, []⟩) := by
  refine ⟨?_, ?_, ?_⟩
  · intro use huse hbad
    unfold getIndex at huse
    unfold search
    rw [huse]
    dsimp only
    split
    · rename_i hopt
      simp [isString, isObject, hopt] at hbad
    · rfl
  · intro cfg hcfg
    simp [getIndex, mapGet_own _ _ _ hcfg, member]
  · intro hnone
    unfold getIndex at hnone
    unfold search
    rcases hnone with h | h <;> rw [h] <;> rfl

/-- C15 amended, exercised: index `i` is declared with the unregistered kind
`nonexistent`, and the search string is a number. -/
theorem search_validation_witness :
    search demoWorld (createSearchIndex demoWorld State.empty (.str "i") (.obj demoOrphan)).state
        (.str "i") (.num 5) (.obj []) .undefined
      = ⟨.error .matchError,
          (createSearchIndex demoWorld State.empty (.str "i") (.obj demoOrphan)).state, []⟩ :=
  (search_validation demoWorld
    (createSearchIndex demoWorld State.empty (.str "i") (.obj demoOrphan)).state
    (.str "i") (.num 5) (.obj []) .undefined).1 (.str "nonexistent") rfl (Or.inr (Or.inl rfl))

/-! ## The default builders and the default permission -/

theorem apply_defaultPermission (W : World) (S : List (String × Obj)) (d : Nat)
    (this : Value) (args : List Value) :
    apply W S d (.fn .defaultPermission) this args = .ok (.bool true) := by
  cases d <;> rfl

theorem apply_ext (W : World) (S : List (String × Obj)) (d : Nat) (i : Nat)
    (this : Value) (args : List Value) :
    apply W S d (.fn (.ext i)) this args = W.call i this args := by
  cases d <;> rfl

theorem stored_of_getIndex (W : World) (st : State) (n : String) (o c : Obj)
    (h : getIndex W (createSearchIndex W st (.str n) (.obj o)).state (.str n) = .obj c) :
    c = extend (clone defaultOptions) (normalizeField o) := by
  rw [createSearchIndex_state] at h
  simp only [getIndex, toKey_str, mapGet_assign_same, Value.obj.injEq] at h
  exact h.symm

theorem read_stored_default (o : Obj) (k : String) (hk : k ∉ keys o) (hf : k ≠ "field") :
    read (extend (clone defaultOptions) (normalizeField o)) k = read defaultOptions k := by
  have hn : k ∉ keys (normalizeField o) := by
    simp [normalizeField, mem_keys_assign, hk, hf]
  simp [read, lookup_extend, hn, clone]

/-- C16 (default builders delegate at call time).  For an index created
without a `query` (resp. `sort`) option, with stored configuration `c`, and
for whatever backend `m` is registered under `c.use` when the call is made,
`c.query(s)` is the call `m.defaultQuery(c, s)` and `c.sort()` is the call
`m.defaultSort(c)`, made on `m` in the next stack frame; for a backend
function supplied from outside this is its value on those arguments. -/
theorem default_builders_delegate (W : World) (st : State) (S : List (String × Obj))
    (n : String) (o c m : Obj) (s : Value) (d : Nat)
    (hdepth : W.depth = d + 1)
    (hcfg : getIndex W (createSearchIndex W st (.str n) (.obj o)).state (.str n) = .obj c)
    (hreg : lookup S (toKey W (read c "use")) = some m) :
    ("query" ∉ keys o →
        apply W S W.depth (read c "query") (.obj c) [s]
            = apply W S d (read m "defaultQuery") (.obj m) [.obj c, s]
          ∧ ∀ i : Nat, read m "defaultQuery" = .fn (.ext i) →
              apply W S W.depth (read c "query") (.obj c) [s] = W.call i (.obj m) [.obj c, s])
      ∧ ("sort" ∉ keys o →
          apply W S W.depth (read c "sort") (.obj c) []
              = apply W S d (read m "defaultSort") (.obj m) [.obj c]
            ∧ ∀ i : Nat, read m "defaultSort" = .fn (.ext i) →
                apply W S W.depth (read c "sort") (.obj c) [] = W.call i (.obj m) [.obj c]) := by
  have hc := stored_of_getIndex W st n o c hcfg
  constructor
  · intro hq
    have hread : read c "query" = .fn .defaultQuery := by
      rw [hc, read_stored_default o "query" hq (by decide)]
      rfl
    have h1 : apply W S W.depth (read c "query") (.obj c) [s]
        = apply W S d (read m "defaultQuery") (.obj m) [.obj c, s] := by
      rw [hread, hdepth]
      simp [apply, member, mapGet_own _ _ _ hreg]
    refine ⟨h1, fun i hi => ?_⟩
    rw [h1, hi, apply_ext]
  · intro hq
    have hread : read c "sort" = .fn .defaultSort := by
      rw [hc, read_stored_default o "sort" hq (by decide)]
      rfl
    have h1 : apply W S W.depth (read c "sort") (.obj c) []
        = apply W S d (read m "defaultSort") (.obj m) [.obj c] := by
      rw [hread, hdepth]
      simp [apply, member, mapGet_own _ _ _ hreg]
    refine ⟨h1, fun i hi => ?_⟩
    rw [h1, hi, apply_ext]

/-- C16, exercised: index `i` is created while no backend is registered; the
builders are called once backend `k` has been registered. -/
theorem default_builders_delegate_witness :
    apply demoWorld demoBackend.searchers demoWorld.depth (read demoStored "query")
        (.obj demoStored) [.str "q"]
      = demoWorld.call 3 (.obj demoMethods) [.obj demoStored, .str "q"]
    ∧ apply demoWorld demoBackend.searchers demoWorld.depth (read demoStored "sort")
        (.obj demoStored) []
      = demoWorld.call 4 (.obj demoMethods) [.obj demoStored] :=
  ⟨((default_builders_delegate demoWorld State.empty demoBackend.searchers "i" demoOptions
      demoStored demoMethods (.str "q") 3 rfl rfl rfl).1 (by decide)).2 3 rfl,
   ((default_builders_delegate demoWorld State.empty demoBackend.searchers "i" demoOptions
      demoStored demoMethods (.str "q") 3 rfl rfl rfl).2 (by decide)).2 4 rfl⟩

/-- C17 (the default permission always allows).  An index created with
options that carry no `permission` key stores the default predicate.  While
the stored predicate is the default one it is true on every search string, so
a well-typed search with a registered backend reaches the backend's `search`
and returns its outcome; and a search whose options carry no `permission` key
leaves the default predicate stored. -/
theorem default_permission_allows (W : World) (st : State) (n : String) (o : Obj)
    (hno : "permission" ∉ keys o) :
    (∃ cfg0 : Obj,
        getIndex W (createSearchIndex W st (.str n) (.obj o)).state (.str n) = .obj cfg0
          ∧ read cfg0 "permission" = .fn .defaultPermission)
      ∧ ∀ (st1 : State) (cfg m p : Obj) (s : String) (cb : Value) (f : Fn),
          lookup st1.indexes n = some cfg →
          read cfg "permission" = .fn .defaultPermission →
          optionalFunction cb = true →
          lookup st1.searchers (toKey W (read cfg "use")) = some m →
          read m "search" = .fn f →
          apply W st1.searchers W.depth (read cfg "permission") (.obj cfg) [.str s]
              = .ok (.bool true)
            ∧ (search W st1 (.str n) (.str s) (.obj p) cb).calls
                = [.permission (.obj cfg) [.str s],
                   .search (toKey W (read cfg "use")) [.str n, .str s, .obj (extend cfg p), cb]]
            ∧ (search W st1 (.str n) (.str s) (.obj p) cb).result
                = apply W st1.searchers W.depth (.fn f) (.obj m)
                    [.str n, .str s, .obj (extend cfg p), cb]
            ∧ ("permission" ∉ keys p →
                ∃ cfg1 : Obj,
                  lookup (search W st1 (.str n) (.str s) (.obj p) cb).state.indexes n = some cfg1
                    ∧ read cfg1 "permission" = .fn .defaultPermission) := by
  constructor
  · refine ⟨extend (clone defaultOptions) (normalizeField o), ?_, ?_⟩
    · rw [createSearchIndex_state]
      simp [getIndex, toKey_str, mapGet_assign_same]
    · rw [read_stored_default o "permission" hno (by decide)]
      rfl
  · intro st1 cfg m p s cb f hcfg hdef hcb hreg hsearch
    have hperm : apply W st1.searchers W.depth (read cfg "permission") (.obj cfg) [.str s]
        = .ok (.bool true) := by
      rw [hdef, apply_defaultPermission]
    rw [search_allowed W st1 n s p cfg m cb (.bool true) hcb hcfg hreg hperm rfl]
    refine ⟨hperm, ?_, ?_, ?_⟩
    · simp [logCall, hsearch, isFunction]
    · simp [hsearch]
    · intro hp
      refine ⟨extend cfg p, by simp [lookup_assign_same], ?_⟩
      simp [read, lookup_extend, hp] at hdef ⊢
      exact hdef

/-- C17, exercised: an index created with `demoOptions`, which carry no
`permission` key. -/
theorem default_permission_allows_witness :
    ∃ cfg0 : Obj,
      getIndex demoWorld
          (createSearchIndex demoWorld demoBackend (.str "i") (.obj demoOptions)).state (.str "i")
        = .obj cfg0
      ∧ read cfg0 "permission" = .fn .defaultPermission :=
  (default_permission_allows demoWorld demoBackend "i" demoOptions (by decide)).1

/-! ## Dispatch and the permission gate under call-time overrides -/

theorem extend_nil (cfg : Obj) : extend cfg [] = cfg := rfl

theorem read_extend_of_lookup (cfg p : Obj) (k : String) (v : Value)
    (h : lookup p k = some v) : read (extend cfg p) k = v := by
  have hk : k ∈ keys p := mem_keys_of_lookup p k v h
  simp [read, lookup_extend, hk, h]

/-- C18, refuted as stated: index `i` of the registered kind `k` is searched
with the call-time option `use: "toString"`, a kind that nobody registers.
The next search with empty options does not fail with the unknown-backend
error: `Searchers["toString"]` is the function that the map inherits, the
guard of line 78 does not fire, and the call at line 86 throws a
`TypeError`. -/
theorem dispatch_by_stored_kind_counterexample :
    lookup demoBackend.searchers "toString" = none
      ∧ (search demoWorld
          (createSearchIndex demoWorld demoBackend (.str "i") (.obj demoOptions)).state
          (.str "i") (.str "q") (.obj [("use", .str "toString")]) .undefined).result
        = .ok (.bool true)
      ∧ (search demoWorld
          (search demoWorld
            (createSearchIndex demoWorld demoBackend (.str "i") (.obj demoOptions)).state
            (.str "i") (.str "q") (.obj [("use", .str "toString")]) .undefined).state
          (.str "i") (.str "again") (.obj []) .undefined).result = .error .typeError :=
  ⟨rfl, rfl, rfl⟩

/-- C18, amended.  On a declared index whose stored kind `k1` is registered
and whose permission predicate holds, a search whose options carry
`use = k2`, another kind, invokes the `search` of backend `k1` and none of
`k2`, while the configuration it passes and stores has `use = k2`.  The next
search on the index with empty options is dispatched by `k2`: it throws the
unknown-backend error when `Searchers[k2]` is `undefined`, and invokes the
`search` of backend `k2` when `k2` is registered and the predicate holds. -/
theorem dispatch_by_stored_kind (W : World) (st : State) (n s : String) (p cfg m1 : Obj)
    (cb allowed k2 : Value) (f : Fn)
    (hcb : optionalFunction cb = true)
    (hcfg : lookup st.indexes n = some cfg)
    (hreg : lookup st.searchers (toKey W (read cfg "use")) = some m1)
    (hsearch : read m1 "search" = .fn f)
    (hperm : apply W st.searchers W.depth (read cfg "permission") (.obj cfg) [.str s]
      = .ok allowed)
    (hallow : truthy allowed = true)
    (hk2 : lookup p "use" = some k2)
    (hne : toKey W k2 ≠ toKey W (read cfg "use")) :
    (search W st (.str n) (.str s) (.obj p) cb).calls
        = [.permission (.obj cfg) [.str s],
           .search (toKey W (read cfg "use")) [.str n, .str s, .obj (extend cfg p), cb]]
      ∧ (∀ c ∈ (search W st (.str n) (.str s) (.obj p) cb).calls,
          ∀ args : List Value, c ≠ .search (toKey W k2) args)
      ∧ read (extend cfg p) "use" = k2
      ∧ getIndex W (search W st (.str n) (.str s) (.obj p) cb).state (.str n)
          = .obj (extend cfg p)
      ∧ (getSearcher W st k2 = .undefined →
          ∀ (s2 : String) (cb2 : Value), optionalFunction cb2 = true →
            (search W (search W st (.str n) (.str s) (.obj p) cb).state
                (.str n) (.str s2) (.obj []) cb2).result
              = .error (.meteorError 500 (unknownTypeReason W k2)))
      ∧ (∀ (m2 : Obj) (f2 : Fn) (s2 : String) (cb2 allowed2 : Value),
          lookup st.searchers (toKey W k2) = some m2 →
          read m2 "search" = .fn f2 →
          optionalFunction cb2 = true →
          apply W st.searchers W.depth (read (extend cfg p) "permission") (.obj (extend cfg p))
              [.str s2] = .ok allowed2 →
          truthy allowed2 = true →
          (search W (search W st (.str n) (.str s) (.obj p) cb).state
              (.str n) (.str s2) (.obj []) cb2).calls
            = [.permission (.obj (extend cfg p)) [.str s2],
               .search (toKey W k2) [.str n, .str s2, .obj (extend cfg p), cb2]]) := by
  have huse : read (extend cfg p) "use" = k2 := read_extend_of_lookup cfg p "use" k2 hk2
  rw [search_allowed W st n s p cfg m1 cb allowed hcb hcfg hreg hperm hallow]
  have hcfg2 : lookup ({ st with indexes := assign st.indexes n (extend cfg p) } : State).indexes n
      = some (extend cfg p) := by
    simp [lookup_assign_same]
  refine ⟨?_, ?_, huse, ?_, ?_, ?_⟩
  · simp [logCall, hsearch, isFunction]
  · intro c hc args hEq
    subst hEq
    simp [logCall, hsearch, isFunction, hne] at hc
  · simp [getIndex, toKey_str, mapGet_assign_same]
  · intro hnone s2 cb2 hcb2
    rw [search_unregistered W _ n s2 [] (extend cfg p) cb2 hcb2 hcfg2 (by rw [huse]; exact hnone),
      huse]
  · intro m2 f2 s2 cb2 allowed2 hreg2 hsearch2 hcb2 hperm2 hallow2
    rw [search_allowed W _ n s2 [] (extend cfg p) m2 cb2 allowed2 hcb2 hcfg2
      (by rw [huse]; exact hreg2) hperm2 hallow2]
    simp [logCall, hsearch2, isFunction, huse, extend_nil]

/-- C18 amended, exercised: index `i` of the registered kind `k` is searched
with the call-time option `use: "other"`, a kind that names nothing in the
backend map. -/
theorem dispatch_by_stored_kind_witness :
    (search demoWorld (createSearchIndex demoWorld demoBackend (.str "i") (.obj demoOptions)).state
        (.str "i") (.str "q") (.obj demoRedirect) .undefined).calls
        = [.permission (.obj demoStored) [.str "q"],
           .search "k" [.str "i", .str "q", .obj (extend demoStored demoRedirect), .undefined]]
      ∧ (search demoWorld
          (search demoWorld
            (createSearchIndex demoWorld demoBackend (.str "i") (.obj demoOptions)).state
            (.str "i") (.str "q") (.obj demoRedirect) .undefined).state
          (.str "i") (.str "again") (.obj []) .undefined).result
        = .error (.meteorError 500 (unknownTypeReason demoWorld (.str "other"))) :=
  let h := dispatch_by_stored_kind demoWorld
    (createSearchIndex demoWorld demoBackend (.str "i") (.obj demoOptions)).state
    "i" "q" demoRedirect demoStored demoMethods .undefined (.bool true) (.str "other") (.ext 1)
    rfl rfl rfl rfl rfl rfl rfl (by decide)
  ⟨h.1, h.2.2.2.2.1 rfl "again" .undefined rfl⟩

/-- C19 (the permission gate uses the stored predicate and can be replaced).
On a declared index with a registered backend, a search whose stored predicate
holds on `s1` and whose options carry a `permission` key is gated by the stored
predicate alone: it reaches the backend whatever the supplied predicate is.
The supplied predicate is stored, and a later search on any `s2` is decided by
it: denied when it returns a false value on `s2`, passed to the backend when it
returns a true one.  A search that the stored predicate denies leaves the
state, and so the stored predicate, as it was. -/
theorem permission_gate_replaceable (W : World) (st : State) (n s1 : String) (p cfg m : Obj)
    (cb allowed q : Value)
    (hcb : optionalFunction cb = true)
    (hcfg : lookup st.indexes n = some cfg)
    (hreg : lookup st.searchers (toKey W (read cfg "use")) = some m)
    (hperm : apply W st.searchers W.depth (read cfg "permission") (.obj cfg) [.str s1]
      = .ok allowed)
    (hallow : truthy allowed = true)
    (hq : lookup p "permission" = some q) :
    (search W st (.str n) (.str s1) (.obj p) cb).result
        = apply W st.searchers W.depth (read m "search") (.obj m)
            [.str n, .str s1, .obj (extend cfg p), cb]
      ∧ (∀ c ∈ (search W st (.str n) (.str s1) (.obj p) cb).calls,
          ∀ (this : Value) (args : List Value),
            c = .permission this args → this = .obj cfg ∧ args = [.str s1])
      ∧ getIndex W (search W st (.str n) (.str s1) (.obj p) cb).state (.str n)
          = .obj (extend cfg p)
      ∧ read (extend cfg p) "permission" = q
      ∧ (∀ (s2 : String) (p2 m2 : Obj) (cb2 a2 : Value),
          optionalFunction cb2 = true →
          lookup st.searchers (toKey W (read (extend cfg p) "use")) = some m2 →
          apply W st.searchers W.depth q (.obj (extend cfg p)) [.str s2] = .ok a2 →
          (truthy a2 = false →
              (search W (search W st (.str n) (.str s1) (.obj p) cb).state
                  (.str n) (.str s2) (.obj p2) cb2).result = .ok emptyResult)
            ∧ (truthy a2 = true →
              (search W (search W st (.str n) (.str s1) (.obj p) cb).state
                  (.str n) (.str s2) (.obj p2) cb2).result
                = apply W st.searchers W.depth (read m2 "search") (.obj m2)
                    [.str n, .str s2, .obj (extend (extend cfg p) p2), cb2]))
      ∧ (∀ (s3 : String) (a3 : Value),
          apply W st.searchers W.depth (read cfg "permission") (.obj cfg) [.str s3] = .ok a3 →
          truthy a3 = false →
          (search W st (.str n) (.str s3) (.obj p) cb).state = st) := by
  have hperm' : read (extend cfg p) "permission" = q :=
    read_extend_of_lookup cfg p "permission" q hq
  have hcfg2 : lookup ({ st with indexes := assign st.indexes n (extend cfg p) } : State).indexes n
      = some (extend cfg p) := by
    simp [lookup_assign_same]
  refine ⟨?_, ?_, ?_, hperm', ?_, ?_⟩
  · rw [search_allowed W st n s1 p cfg m cb allowed hcb hcfg hreg hperm hallow]
  · rw [search_allowed W st n s1 p cfg m cb allowed hcb hcfg hreg hperm hallow]
    intro c hc this args hEq
    subst hEq
    simp only [List.singleton_append, List.mem_cons] at hc
    rcases hc with hc | hc
    · cases hc
      exact ⟨rfl, rfl⟩
    · unfold logCall at hc
      split at hc
      · simp at hc
      · simp at hc
  · rw [search_allowed W st n s1 p cfg m cb allowed hcb hcfg hreg hperm hallow]
    simp [getIndex, toKey_str, mapGet_assign_same]
  · intro s2 p2 m2 cb2 a2 hcb2 hreg2 hperm2
    rw [search_allowed W st n s1 p cfg m cb allowed hcb hcfg hreg hperm hallow]
    have hp2 : apply W ({ st with indexes := assign st.indexes n (extend cfg p) } : State).searchers
        W.depth (read (extend cfg p) "permission") (.obj (extend cfg p)) [.str s2] = .ok a2 := by
      rw [hperm']
      exact hperm2
    constructor
    · intro hdeny
      rw [search_denied W _ n s2 p2 (extend cfg p) m2 cb2 a2 hcb2 hcfg2 hreg2 hp2 hdeny]
    · intro hok
      rw [search_allowed W _ n s2 p2 (extend cfg p) m2 cb2 a2 hcb2 hcfg2 hreg2 hp2 hok]
  · intro s3 a3 hperm3 hdeny
    rw [search_denied W st n s3 p cfg m cb a3 hcb hcfg hreg hperm3 hdeny]

/-- C19, exercised: index `i` with the default predicate is searched with the
call-time option `permission` set to the denying outside function `0`; that
search reaches the backend, and the next one is denied. -/
theorem permission_gate_replaceable_witness :
    (search demoWorld (createSearchIndex demoWorld demoBackend (.str "i") (.obj demoOptions)).state
        (.str "i") (.str "q") (.obj demoOverride) .undefined).result
        = demoWorld.call 1 (.obj demoMethods)
            [.str "i", .str "q", .obj (extend demoStored demoOverride), .undefined]
      ∧ (search demoWorld
          (search demoWorld
            (createSearchIndex demoWorld demoBackend (.str "i") (.obj demoOptions)).state
            (.str "i") (.str "q") (.obj demoOverride) .undefined).state
          (.str "i") (.str "q") (.obj []) .undefined).result = .ok emptyResult :=
  let h := permission_gate_replaceable demoWorld
    (createSearchIndex demoWorld demoBackend (.str "i") (.obj demoOptions)).state
    "i" "q" demoOverride demoStored demoMethods .undefined (.bool true) (.fn (.ext 0))
    rfl rfl rfl rfl rfl rfl
  ⟨h.1, (h.2.2.2.2.1 "q" [] demoMethods .undefined (.bool false) rfl rfl rfl).1 rfl⟩

/-! ## Isolation of indexes and of the default template -/

theorem createSearchIndex_indexes_cases (W : World) (st : State) (name options : Value) :
    (createSearchIndex W st name options).state.indexes = st.indexes
      ∨ ∃ cfg : Obj, (createSearchIndex W st name options).state.indexes
          = assign st.indexes (toKey W name) cfg := by
  cases name <;> cases options <;> first
    | exact Or.inl rfl
    | (right
       rw [createSearchIndex_state]
       exact ⟨_, rfl⟩)

theorem writeBack_cases (map : List (String × Obj)) (key : String) (merged : Obj)
    (hproto : lookup map "__proto__" = none) :
    writeBack map key merged = map ∨ writeBack map key merged = assign map key merged := by
  unfold writeBack
  split
  · exact Or.inr rfl
  · rw [hproto]
    exact Or.inl rfl

theorem search_indexes_cases (W : World) (st : State)
    (name searchString options callback : Value)
    (hproto : lookup st.indexes "__proto__" = none) :
    (search W st name searchString options callback).state.indexes = st.indexes
      ∨ ∃ cfg : Obj, (search W st name searchString options callback).state.indexes
          = assign st.indexes (toKey W name) cfg := by
  unfold search
  repeat' (first | exact Or.inl rfl | split | (dsimp only; split))
  all_goals
    rcases writeBack_cases st.indexes _ _ hproto with h | h
    · exact Or.inl h
    · exact Or.inr ⟨_, h⟩

theorem mapGet_of_cases (map map1 : List (String × Obj)) (key other : String)
    (hkey : key ≠ "__proto__") (hne : other ≠ key)
    (h : map1 = map ∨ ∃ cfg : Obj, map1 = assign map key cfg) :
    mapGet map1 other = mapGet map other := by
  rcases h with h | ⟨cfg, h⟩
  · rw [h]
  · rw [h, mapGet_assign_ne _ _ _ _ hkey hne]

theorem created_default (W : World) (st : State) (b : String) (o : Obj) (k : String)
    (hk : k ∉ keys o) (hf : k ≠ "field") :
    ∃ cfg : Obj,
      getIndex W (createSearchIndex W st (.str b) (.obj o)).state (.str b) = .obj cfg
        ∧ read cfg k = read defaultOptions k := by
  refine ⟨extend (clone defaultOptions) (normalizeField o), ?_, read_stored_default o k hk hf⟩
  rw [createSearchIndex_state]
  simp [getIndex, toKey_str, mapGet_assign_same]

/-- C20, refuted as stated: `createSearchIndex("__proto__", demoOptions)`
makes the stored configuration the prototype of the index map, so that
`getIndex("limit")`, a name different from `__proto__`, changes from
`undefined` to `10`. -/
theorem index_isolation_counterexample :
    toKey demoWorld (.str "limit") ≠ toKey demoWorld (.str "__proto__")
      ∧ getIndex demoWorld demoBackend (.str "limit") = .undefined
      ∧ getIndex demoWorld
          (createSearchIndex demoWorld demoBackend (.str "__proto__") (.obj demoOptions)).state
          (.str "limit") = .num 10 :=
  ⟨by decide, rfl, rfl⟩

/-- C20, amended.  From every registry state in which the index map has its
original prototype (no index has been created under `__proto__`), and for
every name `A` other than `__proto__`, `createSearchIndex(A, ..)` and
`search(A, ..)` with any arguments leave `getIndex(B)` unchanged for every `B`
denoting another key than `A`.  From every state and for every `A` they leave
the backend registry unchanged.  The default template is unchanged: in the
state either operation leaves, an index created with options lacking a key
gets the default of that key, and the defaults are format `mongo`, limit `10`,
use `minimongo`. -/
theorem index_isolation (W : World) (st : State) (a options searchString callback : Value) :
    (toKey W a ≠ "__proto__" → lookup st.indexes "__proto__" = none →
        ∀ other : Value, toKey W other ≠ toKey W a →
          getIndex W (createSearchIndex W st a options).state other = getIndex W st other
            ∧ getIndex W (search W st a searchString options callback).state other
                = getIndex W st other)
      ∧ (createSearchIndex W st a options).state.searchers = st.searchers
      ∧ (search W st a searchString options callback).state.searchers = st.searchers
      ∧ (∀ (b k : String) (o : Obj), k ∉ keys o → k ≠ "field" →
          (∃ cfg : Obj,
              getIndex W (createSearchIndex W (createSearchIndex W st a options).state
                  (.str b) (.obj o)).state (.str b) = .obj cfg
                ∧ read cfg k = read defaultOptions k)
            ∧ (∃ cfg : Obj,
              getIndex W (createSearchIndex W
                  (search W st a searchString options callback).state
                  (.str b) (.obj o)).state (.str b) = .obj cfg
                ∧ read cfg k = read defaultOptions k))
      ∧ read defaultOptions "format" = .str "mongo"
      ∧ read defaultOptions "limit" = .num 10
      ∧ read defaultOptions "use" = .str "minimongo" := by
  refine ⟨?_, createSearchIndex_searchers W st a options,
    search_searchers W st a searchString options callback, ?_, rfl, rfl, rfl⟩
  · intro ha hproto other hne
    exact ⟨mapGet_of_cases _ _ _ _ ha hne (createSearchIndex_indexes_cases W st a options),
      mapGet_of_cases _ _ _ _ ha hne
        (search_indexes_cases W st a searchString options callback hproto)⟩
  · intro b k o hk hf
    exact ⟨created_default W _ b o k hk hf, created_default W _ b o k hk hf⟩

/-- C20 amended, exercised: index `i` is searched with the call-time option
`limit: 5`; the other index `j` reads as before, and index `n`, created
afterwards without a `limit`, has the default limit. -/
theorem index_isolation_witness :
    getIndex demoWorld
        (search demoWorld
          (createSearchIndex demoWorld
            (createSearchIndex demoWorld demoBackend (.str "j") (.obj demoDenying)).state
            (.str "i") (.obj demoOptions)).state
          (.str "i") (.str "q") (.obj [("limit", .num 5)]) .undefined).state (.str "j")
      = getIndex demoWorld
          (createSearchIndex demoWorld
            (createSearchIndex demoWorld demoBackend (.str "j") (.obj demoDenying)).state
            (.str "i") (.obj demoOptions)).state (.str "j")
    ∧ ∃ cfg : Obj,
      getIndex demoWorld
          (createSearchIndex demoWorld
            (search demoWorld
              (createSearchIndex demoWorld
                (createSearchIndex demoWorld demoBackend (.str "j") (.obj demoDenying)).state
                (.str "i") (.obj demoOptions)).state
              (.str "i") (.str "q") (.obj [("limit", .num 5)]) .undefined).state
            (.str "n") (.obj demoOptions)).state (.str "n") = .obj cfg
        ∧ read cfg "limit" = read defaultOptions "limit" :=
  ⟨((index_isolation demoWorld
      (createSearchIndex demoWorld
        (createSearchIndex demoWorld demoBackend (.str "j") (.obj demoDenying)).state
        (.str "i") (.obj demoOptions)).state
      (.str "i") (.obj [("limit", .num 5)]) (.str "q") .undefined).1
      (by decide) rfl (.str "j") (by decide)).2,
   ((index_isolation demoWorld
      (createSearchIndex demoWorld
        (createSearchIndex demoWorld demoBackend (.str "j") (.obj demoDenying)).state
        (.str "i") (.obj demoOptions)).state
      (.str "i") (.obj [("limit", .num 5)]) (.str "q") .undefined).2.2.2.1
    "n" "limit" demoOptions (by decide) (by decide)).2⟩

end EasySearch
